import Mathlib

/-!
Verification of the departure-board pipeline of Tcha182/Prochains_Departs.

The development shallowly embeds the network workers of `api.py` and the
helpers of `models.py`.  JSON payloads are modelled by an inductive `Json`
type; Python's subscript / `.get` / iteration / truthiness semantics are
modelled explicitly, including the exception class each operation raises,
because the workers catch only specific exception classes
(`requests.RequestException`, `KeyError`, `ValueError`, `IndexError`) and the
behaviour on other classes (`TypeError`, `AttributeError`) is observable.
Network calls are modelled by oracles mapping a request to its outcome
(a transport error, i.e. `requests.RequestException`, or a decoded JSON
body).  Machine floats (`eta_seconds`, timestamps) are modelled as integer
seconds: no claim below depends on fractional values, only on signs and on
which exceptions are raised.
-/

/-- A JSON value as produced by `resp.json()`.  Numbers are modelled as
integers (the feeds deliver integer-or-string scalars; no claim depends on
fractional numeric values). -/
inductive Json where
  | null : Json
  | bool : Bool → Json
  | num : Int → Json
  | str : String → Json
  | arr : List Json → Json
  | obj : List (String × Json) → Json
deriving Repr, Inhabited

/-- The Python exception classes that the workers of `api.py` can raise or
catch.  `requestError` stands for `requests.RequestException` (connectivity,
timeout, HTTP status, and — in requests ≥ 2.27 — JSON decode errors). -/
inductive PyExc where
  | keyError : PyExc
  | indexError : PyExc
  | typeError : PyExc
  | valueError : PyExc
  | attributeError : PyExc
  | requestError : PyExc
deriving DecidableEq, Repr

namespace Json

/-- Python truthiness of a JSON value (`if x:`). -/
def truthy : Json → Bool
  | .null => false
  | .bool b => b
  | .num n => n ≠ 0
  | .str s => s ≠ ""
  | .arr xs => !xs.isEmpty
  | .obj kvs => !kvs.isEmpty

end Json

mutual

/-- Python `==` on JSON values (element-wise on lists, key/value-wise on
dicts).  Structural equality, except that Python treats `True`/`False` as
the integers `1`/`0`. -/
def Json.pyEq : Json → Json → Bool
  | .null, .null => true
  | .bool a, .bool b => a = b
  | .bool a, .num n => (if a then (1 : Int) else 0) = n
  | .num n, .bool b => n = (if b then (1 : Int) else 0)
  | .num a, .num b => a = b
  | .str a, .str b => a = b
  | .arr a, .arr b => Json.pyEqList a b
  | .obj a, .obj b => Json.pyEqKV a b
  | _, _ => false

def Json.pyEqList : List Json → List Json → Bool
  | [], [] => true
  | x :: xs, y :: ys => Json.pyEq x y && Json.pyEqList xs ys
  | _, _ => false

def Json.pyEqKV : List (String × Json) → List (String × Json) → Bool
  | [], [] => true
  | (k, v) :: xs, (k', v') :: ys => k = k' && Json.pyEq v v' && Json.pyEqKV xs ys
  | _, _ => false

end

namespace Json

/-- Whether a JSON value is hashable in Python (usable as a `dict` key or
`set` element): scalars are, lists and dicts are not. -/
def hashable : Json → Bool
  | .arr _ => false
  | .obj _ => false
  | _ => true

/-- Python `x or y` on JSON values: `y` if `x` is falsy, else `x`. -/
def pyOr (x y : Json) : Json := if truthy x then x else y

/-- Python `d[k]` with a string key.  Objects look the key up (`KeyError`
when absent); every other shape raises `TypeError` (list/str indices must be
integers; scalars are not subscriptable). -/
def getItemStr : Json → String → Except PyExc Json
  | .obj kvs, k =>
    match kvs.lookup k with
    | some v => .ok v
    | none => .error .keyError
  | _, _ => .error .typeError

/-- Python `d[i]` with a non-negative integer index.  Lists index
(`IndexError` when out of range); strings index to a one-character string;
dicts raise `KeyError` (JSON object keys are strings, so an integer key is
never present); scalars raise `TypeError`. -/
def getItemIdx : Json → Nat → Except PyExc Json
  | .arr xs, i =>
    match xs[i]? with
    | some v => .ok v
    | none => .error .indexError
  | .str s, i =>
    match s.toList[i]? with
    | some c => .ok (.str (String.mk [c]))
    | none => .error .indexError
  | .obj _, _ => .error .keyError
  | _, _ => .error .typeError

/-- Python `d.get(k, default)`.  Only dicts have `.get`; every other shape
raises `AttributeError`. -/
def dictGet : Json → String → Json → Except PyExc Json
  | .obj kvs, k, dflt => .ok ((kvs.lookup k).getD dflt)
  | _, _, _ => .error .attributeError

/-- Python `for x in j`: lists yield elements, strings yield one-character
strings, dicts yield their keys; scalars raise `TypeError`. -/
def pyIter : Json → Except PyExc (List Json)
  | .arr xs => .ok xs
  | .str s => .ok (s.toList.map fun c => .str (String.mk [c]))
  | .obj kvs => .ok (kvs.map fun kv => .str kv.1)
  | _ => .error .typeError

end Json

/-! ## `models.py`: normalization helpers -/

/-- The character class of the regex `[-''\s<>()]+` in `models.py`
(`normalize`): dash, apostrophe, whitespace, angle brackets, parentheses. -/
def isSepChar (c : Char) : Bool :=
  c = '-' || c = '\'' || c.isWhitespace || c = '<' || c = '>' || c = '(' || c = ')'

/-- Models `unicodedata.normalize("NFD", ·)` followed by removal of
combining marks (category `Mn`), character by character, for the Latin-1
accented letters that occur in IDFM stop and destination names; characters
outside this table decompose to themselves. -/
def stripAccent (c : Char) : Char :=
  match c with
  | 'à' | 'â' | 'ä' => 'a'
  | 'ç' => 'c'
  | 'é' | 'è' | 'ê' | 'ë' => 'e'
  | 'î' | 'ï' => 'i'
  | 'ô' | 'ö' => 'o'
  | 'ù' | 'û' | 'ü' => 'u'
  | 'ÿ' => 'y'
  | 'À' | 'Â' | 'Ä' => 'A'
  | 'Ç' => 'C'
  | 'É' | 'È' | 'Ê' | 'Ë' => 'E'
  | 'Î' | 'Ï' => 'I'
  | 'Ô' | 'Ö' => 'O'
  | 'Ù' | 'Û' | 'Ü' => 'U'
  | _ => c

/-- `re.sub(r"[-''\s<>()]+", " ", ·)`: replace every run of separator
characters by a single space.  The flag records whether the previous
character belonged to a separator run. -/
def collapseSepsAux : Bool → List Char → List Char
  | _, [] => []
  | inSep, c :: rest =>
    if isSepChar c then
      if inSep then collapseSepsAux true rest
      else ' ' :: collapseSepsAux true rest
    else c :: collapseSepsAux false rest

def collapseSeps (l : List Char) : List Char := collapseSepsAux false l

/-- Python `str.strip()` after `collapseSeps`: the only whitespace left is
the plain space, so trim spaces from both ends. -/
def trimSpaces (l : List Char) : List Char :=
  ((l.dropWhile (· = ' ')).reverse.dropWhile (· = ' ')).reverse

namespace models

/-- `models.normalize`: strip accents, collapse separator runs to single
spaces, trim, lowercase.  (Python's `str.lower()` is full-Unicode; after
accent stripping the relevant alphabet is ASCII, where `Char.toLower`
agrees.)  Named `models.normalize` because Mathlib already owns the root
name `normalize`. -/
def normalize (text : String) : String :=
  String.mk ((trimSpaces (collapseSeps (text.toList.map stripAccent))).map Char.toLower)

end models

/-- `b.startswith(a)` on character lists. -/
def listStartsWith : List Char → List Char → Bool
  | _, [] => true
  | [], _ :: _ => false
  | h :: hs, n :: ns => h = n && listStartsWith hs ns

/-- Python substring test `needle in hay` on character lists. -/
def listHasSub : List Char → List Char → Bool
  | [], needle => needle.isEmpty
  | h :: t, needle => listStartsWith (h :: t) needle || listHasSub t needle

/-- Python `needle in hay` on strings. -/
def strContains (hay needle : String) : Bool :=
  listHasSub hay.toList needle.toList

/-- `models.is_same_place`: false if either (already normalized) name is
empty, else true iff one is a substring of the other. -/
def is_same_place (a b : String) : Bool :=
  if a = "" || b = "" then false
  else strContains b a || strContains a b

/-- Python `str.lower()`, restricted to ASCII case mapping (the only case
mapping exercised by the claims). -/
def lowerStr (s : String) : String :=
  String.mk (s.toList.map Char.toLower)

/-! ## Data classes of `models.py` -/

namespace models

/-- `models.Favourite`.  All fields are strings, as produced by the
favourite-creation flow. -/
structure Favourite where
  stop_area_id : String
  stop_name : String
  line_id : String
  line_name : String
  line_color : String := "FFFFFF"
  line_text_color : String := "000000"
  direction : String := ""
  destination_name : String := ""
deriving Repr, DecidableEq

/-- `models.Departure`.  Python dataclasses do not enforce their field
annotations: `_parse_departures` fills most fields from `.get(...)` lookups
that can return an arbitrary JSON value, so those fields are typed `Json`.
`expected_iso` is always a string: a truthy non-string expected time makes
`_parse_departures` raise `AttributeError` before the `Departure` is built,
and a falsy one collapses to `""` via `expected_time or ""`.  The two float
fields are embedded as integer seconds. -/
structure Departure where
  line_name : Json
  line_id : Json
  destination : Json
  expected_iso : String
  departure_status : Json := .str ""
  vehicle_at_stop : Json := .bool false
  direction_ref : Json := .str ""
  fetch_timestamp : Int := 0
  eta_seconds : Int := 0
deriving Repr

/-- `models.LineAtStop` as built by `LineSearchWorker.run`: the five
record-derived fields come from `.get(...)` lookups and are typed `Json`;
`route_id` is the f-string `f"IDFM:{line_id}"`. -/
structure LineAtStop where
  line_id : Json
  line_name : Json
  mode : Json
  line_color : Json
  line_text_color : Json
  route_id : String
deriving Repr

/-- `models.StopOnLine` as built by `StopsOnLineWorker.run`. -/
structure StopOnLine where
  stop_name : Json
  stop_id : Json
deriving Repr

end models

/-! ## `api.py`: shared machinery -/

namespace api

/-- Outcome of one `requests.get(...)` + `raise_for_status()` + `.json()`
sequence: either a `requests.RequestException` (connectivity, timeout, bad
HTTP status, or an undecodable JSON body, which in requests ≥ 2.27 is also
a `RequestException`), or a decoded JSON body.  `fetchTs` models the
`time.time()` value taken right after the response; only the departure
aggregator reads it. -/
inductive ReqOutcome where
  | transportError : ReqOutcome
  | ok (body : Json) (fetchTs : Int) : ReqOutcome

/-- An element of `api._natural_sort_key`'s result: `int(c)` for digit runs,
`c.lower()` for the rest. -/
inductive NatKeyElem where
  | int : Int → NatKeyElem
  | str : String → NatKeyElem
deriving Repr, DecidableEq

/-- `re.split(r'(\d+)', text)`: alternating non-digit and digit runs, with
(possibly empty) non-digit pieces at both borders.  `acc` holds completed
pieces in reverse; `cur` holds the current run in reverse; `curIsDigit`
tells which kind the current run is (the initial run is the non-digit
border piece, possibly empty). -/
def digitSplitGo (acc : List (List Char)) (cur : List Char) (curIsDigit : Bool) :
    List Char → List (List Char)
  | [] =>
    acc.reverse ++ (if curIsDigit then [cur.reverse, []] else [cur.reverse])
  | c :: rest =>
    if c.isDigit = curIsDigit then digitSplitGo acc (c :: cur) curIsDigit rest
    else digitSplitGo (cur.reverse :: acc) [c] c.isDigit rest

def splitDigitRuns (l : List Char) : List (List Char) :=
  digitSplitGo [] [] false l

/-- `int(c)` for a digit run. -/
def digitsToInt (p : List Char) : Int :=
  p.foldl (fun n c => n * 10 + ((c.toNat : Int) - 48)) 0

/-- `str.isdigit()` on one character.  The table is exact on Latin-1
(U+0000–U+00FF): there the characters with the digit property are the
decimal digits `0`–`9` plus the superscripts `¹` (U+00B9), `²` (U+00B2) and
`³` (U+00B3), which `\d` does not match and `int()` rejects.  Code points
above U+00FF are treated as non-digits — the same domain restriction as the
accent table of `models.normalize` (within Latin-1, `\d` of `re.split`
coincides with `Char.isDigit`, so `splitDigitRuns` needs no own table). -/
def pyIsDigitChar (c : Char) : Bool :=
  c.isDigit || c.toNat = 178 || c.toNat = 179 || c.toNat = 185

/-- One piece `c` of `re.split(r'(\d+)', text)` turned into a sort-key
element: `int(c) if c.isdigit() else c.lower()`.  When the piece has the
digit property without consisting of decimal digits (e.g. `"²"`), the guard
is true but `int()` raises `ValueError`; otherwise `c.lower()` never raises
(ASCII lowercasing, as elsewhere in this development). -/
def natKeyPiece (p : List Char) : Except PyExc NatKeyElem :=
  if !p.isEmpty && p.all pyIsDigitChar then
    if p.all Char.isDigit then .ok (.int (digitsToInt p))
    else .error .valueError
  else .ok (.str (String.mk (p.map Char.toLower)))

/-- `api._natural_sort_key`: the pieces of the digit split in order, each
through `natKeyPiece`; the list comprehension is eager, so the first piece
on which `int()` fails raises `ValueError` out of the whole key. -/
def _natural_sort_key (text : String) : Except PyExc (List NatKeyElem) :=
  (splitDigitRuns text.toList).mapM natKeyPiece

/-- Python `<` between two elements of a sort key.  A cross-type comparison
would raise `TypeError` in Python, but two outputs of `_natural_sort_key`
always carry the same element kind at the same position (pieces alternate
string, int, string, ...), so that case is unreachable and is given an
arbitrary total value here. -/
def nkeLtB : NatKeyElem → NatKeyElem → Bool
  | .int a, .int b => a < b
  | .str a, .str b => a < b
  | .int _, .str _ => true
  | .str _, .int _ => false

def nkeEqB : NatKeyElem → NatKeyElem → Bool
  | .int a, .int b => a = b
  | .str a, .str b => a = b
  | _, _ => false

/-- Python list `<` on sort keys: element-wise, shorter list first on ties. -/
def natKeyLt : List NatKeyElem → List NatKeyElem → Bool
  | [], [] => false
  | [], _ :: _ => true
  | _ :: _, [] => false
  | x :: xs, y :: ys => if nkeEqB x y then natKeyLt xs ys else nkeLtB x y

/-- Models `datetime.fromisoformat` (after the `"Z" → "+00:00"` rewrite)
composed with `.timestamp()`, as integer epoch seconds; `none` models
`ValueError`.  Accepts `YYYY-MM-DDTHH:MM:SS` with an optional `±HH:MM`
offset.  Divergences from CPython (fractional seconds, omitted time parts,
naive datetimes being interpreted as local time — here UTC) only change the
numeric value of `eta_seconds` or turn it into the 0 sentinel; no claim
depends on that value. -/
def digitVal (c : Char) : Option Nat :=
  if c.isDigit then some (c.toNat - 48) else none

def num2 (a b : Char) : Option Nat := do
  pure ((← digitVal a) * 10 + (← digitVal b))

def num4 (a b c d : Char) : Option Nat := do
  pure ((← num2 a b) * 100 + (← num2 c d))

/-- Days since 1970-01-01 of a proleptic-Gregorian civil date (standard
days-from-civil formula; all dates involved are CE, so every division is on
non-negative values). -/
def daysFromCivil (y m d : Int) : Int :=
  let y' := if m ≤ 2 then y - 1 else y
  let era := y' / 400
  let yoe := y' - era * 400
  let mp := (m + 9) % 12
  let doy := (153 * mp + 2) / 5 + d - 1
  let doe := yoe * 365 + yoe / 4 - yoe / 100 + doy
  era * 146097 + doe - 719468

def isoEpoch (s : String) : Option Int :=
  match s.toList with
  | y1 :: y2 :: y3 :: y4 :: '-' :: m1 :: m2 :: '-' :: d1 :: d2 :: rest => do
    let y ← num4 y1 y2 y3 y4
    let mo ← num2 m1 m2
    let da ← num2 d1 d2
    if mo < 1 || 12 < mo || da < 1 || 31 < da then none else
    let base := daysFromCivil y mo da * 86400
    match rest with
    | [] => some base
    | 'T' :: h1 :: h2 :: ':' :: mi1 :: mi2 :: ':' :: s1 :: s2 :: rest2 => do
      let h ← num2 h1 h2
      let mi ← num2 mi1 mi2
      let se ← num2 s1 s2
      if 23 < h || 59 < mi || 59 < se then none else
      let t := base + (h : Int) * 3600 + (mi : Int) * 60 + (se : Int)
      match rest2 with
      | [] => some t
      | sign :: o1 :: o2 :: ':' :: o3 :: o4 :: [] => do
        let oh ← num2 o1 o2
        let om ← num2 o3 o4
        let off : Int := (oh : Int) * 3600 + (om : Int) * 60
        if sign = '+' then some (t - off)
        else if sign = '-' then some (t + off)
        else none
      | _ => none
    | _ => none
  | _ => none

end api

/-! ## `api.DepartureWorker` -/

namespace api

/-- The list/scalar decode shared by `DestinationName` and
`PublishedLineName` in `_parse_departures`:
`journey.get(field) or [{}]`, then first element's `"value"` (default
`dflt`) if list-shaped, the scalar itself if a string, `dflt` otherwise. -/
def decodeNameField (journey : Json) (field dflt : String) : Except PyExc Json := do
  let v ← journey.dictGet field .null
  match v.pyOr (.arr [.obj []]) with
  | .arr [] => pure (.str dflt)
  | .arr (x :: _) => x.dictGet "value" (.str dflt)
  | .str s => pure (.str s)
  | _ => pure (.str dflt)

/-- One iteration of the visit loop of `DepartureWorker._parse_departures`,
in source order.  Uncaught exceptions (`AttributeError` from `.get` on a
non-dict, or from `.replace` on a truthy non-string expected time)
propagate. -/
def parseVisit (fetchTs : Int) (visit : Json) : Except PyExc models.Departure := do
  let journey ← visit.dictGet "MonitoredVehicleJourney" (.obj [])
  let call ← journey.dictGet "MonitoredCall" (.obj [])
  let destination ← decodeNameField journey "DestinationName" "?"
  let e1 ← call.dictGet "ExpectedDepartureTime" .null
  let e2 ← call.dictGet "ExpectedArrivalTime" .null
  let e3 ← call.dictGet "AimedDepartureTime" .null
  let expectedTime := (e1.pyOr e2).pyOr e3
  let lineName ← decodeNameField journey "PublishedLineName" ""
  let lineRefObj ← journey.dictGet "LineRef" (.obj [])
  let lineRef ← lineRefObj.dictGet "value" (.str "")
  let depStatus ← call.dictGet "DepartureStatus" (.str "")
  let vehicleAtStop ← call.dictGet "VehicleAtStop" (.bool false)
  let dirRefObj ← journey.dictGet "DirectionRef" (.obj [])
  let directionRef ← dirRefObj.dictGet "value" (.str "")
  let ei ←
    if expectedTime.truthy then
      match expectedTime with
      | .str s =>
        let eta : Int :=
          match isoEpoch (s.replace "Z" "+00:00") with
          | some epoch => epoch - fetchTs
          | none => 0
        pure (s, eta)
      | _ => throw PyExc.attributeError
    else
      pure ("", (0 : Int))
  pure { line_name := lineName, line_id := lineRef, destination := destination,
         expected_iso := ei.1, departure_status := depStatus,
         vehicle_at_stop := vehicleAtStop, direction_ref := directionRef,
         fetch_timestamp := fetchTs, eta_seconds := ei.2 }

/-- `data["Siri"]["ServiceDelivery"]["StopMonitoringDelivery"][0]` followed
by `delivery.get("MonitoredStopVisit", [])`. -/
def deliveryVisits (body : Json) : Except PyExc Json := do
  let siri ← body.getItemStr "Siri"
  let sd ← siri.getItemStr "ServiceDelivery"
  let smd ← sd.getItemStr "StopMonitoringDelivery"
  let delivery ← smd.getItemIdx 0
  delivery.dictGet "MonitoredStopVisit" (.arr [])

/-- The delivery extraction with its `except (KeyError, IndexError)` clause:
those two classes yield `none` (the early `return departures`); every other
class propagates. -/
def deliveryVisitsCaught (body : Json) : Except PyExc (Option Json) :=
  match deliveryVisits body with
  | .ok v => .ok (some v)
  | .error .keyError => .ok none
  | .error .indexError => .ok none
  | .error e => .error e

/-- `DepartureWorker._parse_departures`. -/
def parseDepartures (body : Json) (fetchTs : Int) : Except PyExc (List models.Departure) :=
  match deliveryVisitsCaught body with
  | .error e => .error e
  | .ok none => .ok []
  | .ok (some visitsJson) =>
    match visitsJson.pyIter with
    | .error e => .error e
    | .ok visits => visits.mapM (parseVisit fetchTs)

/-- The per-favourite filter predicate of `DepartureWorker.run`, with
Python's left-to-right short-circuit evaluation: `d.eta_seconds >= 0` is
checked before `d.destination.lower()` is touched, so a non-string
destination only raises `AttributeError` when the eta test passes. -/
def keepDep (fav : models.Favourite) (stopNorm : String) (d : models.Departure) :
    Except PyExc Bool :=
  if d.eta_seconds < 0 then .ok false
  else
    match d.destination with
    | .str dest =>
      if !strContains (lowerStr dest) (lowerStr fav.destination_name) then .ok false
      else if !(fav.direction = "" || d.direction_ref.pyEq (.str fav.direction)) then .ok false
      else .ok (!is_same_place stopNorm (models.normalize dest))
    | _ => .error .attributeError

/-- A list comprehension with a fallible predicate: elements are tested in
order and the first exception aborts the comprehension. -/
def filterME (p : α → Except PyExc Bool) : List α → Except PyExc (List α)
  | [] => .ok []
  | x :: xs =>
    match p x with
    | .error e => .error e
    | .ok b =>
      match filterME p xs with
      | .error e => .error e
      | .ok rest => .ok (if b then x :: rest else rest)

/-- The `matched` list of `DepartureWorker.run` for one favourite
(`stop_norm` is computed from the favourite's stop name first, as in the
source). -/
def matchedDeps (fav : models.Favourite) (all : List models.Departure) :
    Except PyExc (List models.Departure) :=
  filterME (keepDep fav (models.normalize fav.stop_name)) all

/-- `matched.sort(key=lambda d: d.expected_iso or "")`'s key. -/
def sortKeyExp (d : models.Departure) : String :=
  if d.expected_iso = "" then "" else d.expected_iso

def depLe (a b : models.Departure) : Bool := sortKeyExp a ≤ sortKeyExp b

/-- `matched.sort(...)` followed by `matched[:5]` (Python's sort is stable
and ascending; `List.mergeSort` with this `le` implements exactly that). -/
def rankTruncate (l : List models.Departure) : List models.Departure :=
  (l.mergeSort depLe).take 5

/-- `f"{fav.stop_area_id}_{fav.line_id}_{fav.direction}"`. -/
def favKey (fav : models.Favourite) : String :=
  fav.stop_area_id ++ "_" ++ fav.line_id ++ "_" ++ fav.direction

/-- The grouping key `(fav.stop_area_id, fav.line_id)`. -/
def favPair (fav : models.Favourite) : String × String :=
  (fav.stop_area_id, fav.line_id)

/-- `results[key] = value` on an insertion-ordered dict: replace in place
when the key exists, append otherwise. -/
def insertReplace (m : List (String × α)) (k : String) (v : α) : List (String × α) :=
  match m with
  | [] => [(k, v)]
  | (k', v') :: rest => if k' = k then (k, v) :: rest else (k', v') :: insertReplace rest k v

/-- The per-group distribution loop of `DepartureWorker.run`: for each
favourite of the group, in order, filter, sort, truncate, and assign into
`results`.  On an exception the updates made so far are kept (Python's
`results` dict is mutated in place) and the exception is reported. -/
def distribFavs (allDeps : List models.Departure) :
    List models.Favourite → List (String × List models.Departure) →
    List (String × List models.Departure) × Option PyExc
  | [], res => (res, none)
  | fav :: rest, res =>
    match matchedDeps fav allDeps with
    | .error e => (res, some e)
    | .ok m => distribFavs allDeps rest (insertReplace res (favKey fav) (rankTruncate m))

/-- One step of the grouping loop of `DepartureWorker.run`
(`groups.setdefault`-style: append to the existing entry, else add a new
key at the end — Python dicts preserve insertion order). -/
def addToGroups (gs : List ((String × String) × List models.Favourite))
    (p : String × String) (f : models.Favourite) :
    List ((String × String) × List models.Favourite) :=
  match gs with
  | [] => [(p, [f])]
  | (q, l) :: rest =>
    if q = p then (q, l ++ [f]) :: rest else (q, l) :: addToGroups rest p f

/-- The `groups` dict of `DepartureWorker.run`. -/
def depGroups (favs : List models.Favourite) :
    List ((String × String) × List models.Favourite) :=
  favs.foldl (fun gs f => addToGroups gs (favPair f) f) []

/-- Whether the `except (KeyError, ValueError)` clause of
`DepartureWorker.run` catches `e` (`RequestException` is handled separately
through the oracle outcome). -/
def depRunCatches (e : PyExc) : Bool :=
  e = .keyError || e = .valueError

/-- The observable behaviour of one `DepartureWorker.run` call:
the live-feed requests issued in order, the number of `error` emissions,
the payloads of the `finished` emissions, and the uncaught exception, if
any, that aborted the call. -/
structure DepTrace where
  requests : List (String × String)
  errorEvents : Nat
  finishedEvents : List (List (String × List models.Departure))
  crashed : Option PyExc
deriving Repr

/-- The per-group loop of `DepartureWorker.run`.  Each iteration issues the
group's request first; a transport error or a caught parse error emits one
`error` event and moves on; an uncaught exception aborts the whole loop. -/
def depLoop (fetch : String × String → ReqOutcome) :
    List ((String × String) × List models.Favourite) →
    List (String × List models.Departure) → List (String × String) → Nat →
    List (String × List models.Departure) × List (String × String) × Nat × Option PyExc
  | [], res, reqs, errs => (res, reqs, errs, none)
  | (p, gfavs) :: rest, res, reqs, errs =>
    let reqs' := reqs ++ [p]
    match fetch p with
    | .transportError => depLoop fetch rest res reqs' (errs + 1)
    | .ok body fetchTs =>
      match parseDepartures body fetchTs with
      | .error e =>
        if depRunCatches e then depLoop fetch rest res reqs' (errs + 1)
        else (res, reqs', errs, some e)
      | .ok deps =>
        match distribFavs deps gfavs res with
        | (res', none) => depLoop fetch rest res' reqs' errs
        | (res', some e) =>
          if depRunCatches e then depLoop fetch rest res' reqs' (errs + 1)
          else (res', reqs', errs, some e)

/-- `DepartureWorker.run`: group the favourites, process each group, then
emit `finished(results)` — unless an uncaught exception aborted the loop,
in which case no `finished` is ever emitted. -/
def DepartureWorker.run (favs : List models.Favourite)
    (fetch : String × String → ReqOutcome) : DepTrace :=
  match depLoop fetch (depGroups favs) [] [] 0 with
  | (res, reqs, errs, none) => ⟨reqs, errs, [res], none⟩
  | (_, reqs, errs, some e) => ⟨reqs, errs, [], some e⟩

end api

/-! ## `api.LineSearchWorker` -/

namespace api

mutual

/-- Python `repr()` of a JSON value (string escaping inside `repr` is not
modelled; no claim depends on the rendered text of containers). -/
def pyRepr : Json → String
  | .null => "None"
  | .bool true => "True"
  | .bool false => "False"
  | .num n => toString n
  | .str s => "'" ++ s ++ "'"
  | .arr xs => "[" ++ pyReprList xs ++ "]"
  | .obj kvs => "\x7b" ++ pyReprKV kvs ++ "\x7d"

def pyReprList : List Json → String
  | [] => ""
  | [x] => pyRepr x
  | x :: xs => pyRepr x ++ ", " ++ pyReprList xs

def pyReprKV : List (String × Json) → String
  | [] => ""
  | [(k, v)] => "'" ++ k ++ "': " ++ pyRepr v
  | (k, v) :: xs => "'" ++ k ++ "': " ++ pyRepr v ++ ", " ++ pyReprKV xs

end

/-- Python `str()` of a JSON value (as used by f-strings). -/
def pyStr : Json → String
  | .str s => s
  | j => pyRepr j

/-- The `where` parameter built by `LineSearchWorker.run`. -/
def lsWhere (query mode : String) : Option String :=
  let parts :=
    (if query ≠ "" then ["search(shortname_line, \"" ++ query ++ "\")"] else []) ++
    (if mode ≠ "" then ["transportmode=\"" ++ mode ++ "\""] else [])
  if parts.isEmpty then none else some (String.intercalate " AND " parts)

/-- One record of the line-search response turned into a `LineAtStop`. -/
def lsRecord (record : Json) : Except PyExc models.LineAtStop := do
  let lineId ← record.dictGet "id_line" (.str "")
  let short ← record.dictGet "shortname_line" .null
  let nameLine ← record.dictGet "name_line" (.str "")
  let mode ← record.dictGet "transportmode" (.str "")
  let color ← record.dictGet "colourweb_hexa" (.str "FFFFFF")
  let textColor ← record.dictGet "textcolourweb_hexa" (.str "000000")
  pure { line_id := lineId, line_name := short.pyOr nameLine, mode := mode,
         line_color := color, line_text_color := textColor,
         route_id := "IDFM:" ++ pyStr lineId }

/-- `_natural_sort_key(l.line_name)`: raises `TypeError` when the line name
is not a string (`re.split` rejects non-strings), and propagates the
`ValueError` of `_natural_sort_key` itself. -/
def lsSortKey (l : models.LineAtStop) : Except PyExc (List NatKeyElem) :=
  match l.line_name with
  | .str s => _natural_sort_key s
  | _ => .error .typeError

/-- `results.sort(key=lambda l: _natural_sort_key(l.line_name))`: compute
every key (CPython decorates before comparing, so a single bad record
raises), then sort stably and ascending. -/
def lsSort (ls : List models.LineAtStop) : Except PyExc (List models.LineAtStop) := do
  let keyed ← ls.mapM (fun l => do pure ((← lsSortKey l), l))
  pure ((keyed.mergeSort (fun a b => !natKeyLt b.1 a.1)).map (fun p => p.2))

/-- The response-processing part of `LineSearchWorker.run`. -/
def lsParse (body : Json) : Except PyExc (List models.LineAtStop) := do
  let resultsJson ← body.dictGet "results" (.arr [])
  let records ← resultsJson.pyIter
  let rs ← records.mapM lsRecord
  lsSort rs

/-- The observable behaviour of one `LineSearchWorker.run` call. -/
structure LSTrace where
  whereClause : Option String
  finishedEvents : List (List models.LineAtStop × Int)
  errorEvents : Nat
  crashed : Option PyExc
deriving Repr

/-- `LineSearchWorker.run`: only `requests.RequestException` is caught (the
except clause then emits one `error` and `finished([], search_id)`); any
exception raised while processing the payload escapes and no `finished` is
emitted. -/
def LineSearchWorker.run (query mode : String) (searchId : Int)
    (outcome : ReqOutcome) : LSTrace :=
  match outcome with
  | .transportError => ⟨lsWhere query mode, [([], searchId)], 1, none⟩
  | .ok body _ =>
    match lsParse body with
    | .ok rs => ⟨lsWhere query mode, [(rs, searchId)], 0, none⟩
    | .error e => ⟨lsWhere query mode, [], 0, some e⟩

/-! ## `api.StopsOnLineWorker` -/

def isStrJ : Json → Bool
  | .str _ => true
  | _ => false

def isNumJ : Json → Bool
  | .num _ => true
  | .bool _ => true
  | _ => false

def strKeyJ : Json → String
  | .str s => s
  | _ => ""

def numKeyJ : Json → Int
  | .num n => n
  | .bool true => 1
  | _ => 0

/-- The record loop of `StopsOnLineWorker.run`: skip falsy names, raise
`TypeError` when a truthy name is unhashable (the `name in seen` test),
skip names already seen, else record the stop. -/
def solLoop : List Json → List Json → List models.StopOnLine →
    Except PyExc (List models.StopOnLine)
  | [], _, acc => .ok acc
  | r :: rest, seen, acc => do
    let name ← r.dictGet "stop_name" (.str "")
    if !name.truthy then solLoop rest seen acc
    else if !name.hashable then throw PyExc.typeError
    else if seen.any (fun s => s.pyEq name) then solLoop rest seen acc
    else do
      let sid ← r.dictGet "stop_id" (.str "")
      solLoop rest (seen ++ [name]) (acc ++ [{ stop_name := name, stop_id := sid }])

/-- `results.sort(key=lambda s: s.stop_name)`.  The surviving names are
truthy hashables (strings, nonzero numbers, `True`); CPython compares keys
lazily, but any list of two or more keys mixing the string class with the
numeric class performs at least one cross-class `<` and raises `TypeError`,
while single-class lists sort totally.  That is what is modelled here. -/
def solSort (rs : List models.StopOnLine) : Except PyExc (List models.StopOnLine) :=
  if rs.length ≤ 1 then .ok rs
  else if rs.all (fun r => isStrJ r.stop_name) then
    .ok (rs.mergeSort (fun a b => strKeyJ a.stop_name ≤ strKeyJ b.stop_name))
  else if rs.all (fun r => isNumJ r.stop_name) then
    .ok (rs.mergeSort (fun a b => numKeyJ a.stop_name ≤ numKeyJ b.stop_name))
  else .error .typeError

/-- The response-processing part of `StopsOnLineWorker.run`. -/
def solParse (body : Json) : Except PyExc (List models.StopOnLine) := do
  let resultsJson ← body.dictGet "results" (.arr [])
  let records ← resultsJson.pyIter
  let rs ← solLoop records [] []
  solSort rs

/-- The observable behaviour of one `StopsOnLineWorker.run` call. -/
structure SOLTrace where
  requestWhere : String
  finishedEvents : List (List models.StopOnLine)
  errorEvents : Nat
  crashed : Option PyExc
deriving Repr

/-- `StopsOnLineWorker.run`: same exception structure as the line search —
only `RequestException` is caught (one `error` plus `finished([])`). -/
def StopsOnLineWorker.run (routeId : String) (outcome : ReqOutcome) : SOLTrace :=
  let whereClause := "id=\"" ++ routeId ++ "\""
  match outcome with
  | .transportError => ⟨whereClause, [[]], 1, none⟩
  | .ok body _ =>
    match solParse body with
    | .ok rs => ⟨whereClause, [rs], 0, none⟩
    | .error e => ⟨whereClause, [], 0, some e⟩

/-! ## `api.ResolveAndProbeWorker` -/

/-- `s.split(":")[-1]`. -/
def lastColonPiece (s : String) : String :=
  (s.splitOn ":").getLastD ""

/-- `ResolveAndProbeWorker._resolve`, together with the list of catalog
(`arrets`) lookups it performs (the `arrid` each lookup is keyed by).
`.error .requestError` models a `requests.RequestException` escaping from
the catalog call; other `.error` values model uncaught payload-shape
exceptions. -/
def resolveStop (stopId : String) (catalog : String → ReqOutcome) :
    Except PyExc (String × Json) × List String :=
  if strContains stopId "monomodalStopPlace" then
    (.ok (lastColonPiece stopId, .str ""), [])
  else
    let arrId := if strContains stopId ":" then lastColonPiece stopId else stopId
    match catalog arrId with
    | .transportError => (.error .requestError, [arrId])
    | .ok body _ =>
      (match body.dictGet "results" (.arr []) with
       | .error e => .error e
       | .ok records =>
         if records.truthy then
           match records.getItemIdx 0 with
           | .error e => .error e
           | .ok r0 =>
             match r0.dictGet "arrname" (.str "") with
             | .error e => .error e
             | .ok stopName =>
               match records.getItemIdx 0 with
               | .error e => .error e
               | .ok r0' =>
                 match r0'.dictGet "zdaid" (.str "") with
                 | .error e => .error e
                 | .ok zdaId => .ok (pyStr zdaId, stopName)
         else .ok ("", Json.str ""), [arrId])

/-- The destination/direction extraction of one visit in
`_probe_directions`.  Unlike `_parse_departures` there is no
`elif not isinstance(destination, str)` fallback: a truthy non-list,
non-string destination is kept as-is. -/
def probeVisitDest (visit : Json) : Except PyExc (Json × Json) := do
  let journey ← visit.dictGet "MonitoredVehicleJourney" (.obj [])
  let destRaw ← journey.dictGet "DestinationName" .null
  let dest ←
    match destRaw.pyOr (.arr [.obj []]) with
    | .arr [] => pure (Json.str "?")
    | .arr (x :: _) => x.dictGet "value" (.str "?")
    | v => pure v
  let dirRefObj ← journey.dictGet "DirectionRef" (.obj [])
  let dirRef ← dirRefObj.dictGet "value" (.str "")
  pure (dest, dirRef)

/-- The accumulation loop of `_probe_directions`: `destinations` is an
insertion-ordered dict, `destinations[dest] = dir_ref` is only executed for
truthy, non-`"?"`, not-yet-seen destinations; the `dest not in destinations`
test raises `TypeError` on unhashable destinations. -/
def probeLoop : List Json → List (Json × Json) → Except PyExc (List (Json × Json))
  | [], acc => .ok acc
  | v :: vs, acc =>
    match probeVisitDest v with
    | .error e => .error e
    | .ok p =>
      if p.1.truthy && !p.1.pyEq (.str "?") then
        if !p.1.hashable then .error .typeError
        else if acc.any (fun kv => kv.1.pyEq p.1) then probeLoop vs acc
        else probeLoop vs (acc ++ [p])
      else probeLoop vs acc

/-- The response-processing part of `_probe_directions` (after
`resp.json()`), including its `except (KeyError, IndexError)` early
`return []`. -/
def probeParse (body : Json) : Except PyExc (List (Json × Json)) :=
  match deliveryVisitsCaught body with
  | .error e => .error e
  | .ok none => .ok []
  | .ok (some visitsJson) =>
    match visitsJson.pyIter with
    | .error e => .error e
    | .ok visits => probeLoop visits []

/-- The observable behaviour of one `ResolveAndProbeWorker.run` call. -/
structure RPTrace where
  catalogCalls : List String
  probeCalls : List String
  errorEvents : Nat
  finishedEvents : List (String × Json × List (Json × Json))
  crashed : Option PyExc
deriving Repr

/-- `ResolveAndProbeWorker.run`: resolve (its `RequestException` is caught
and yields `error` + `finished("", "", [])`), bail out with
`finished("", "", [])` on an empty stop-area id, else probe (again, only
`RequestException` is caught, yielding `error` + a partial `finished` that
keeps the resolved id and name). -/
def ResolveAndProbeWorker.run (stopId lineId : String)
    (catalog : String → ReqOutcome) (feed : String → ReqOutcome) : RPTrace :=
  let _ := lineId
  match resolveStop stopId catalog with
  | (.error .requestError, calls) => ⟨calls, [], 1, [("", .str "", [])], none⟩
  | (.error e, calls) => ⟨calls, [], 0, [], some e⟩
  | (.ok (said, sname), calls) =>
    if said = "" then ⟨calls, [], 0, [("", .str "", [])], none⟩
    else
      match feed said with
      | .transportError => ⟨calls, [said], 1, [(said, sname, [])], none⟩
      | .ok body _ =>
        match probeParse body with
        | .ok dirs => ⟨calls, [said], 0, [(said, sname, dirs)], none⟩
        | .error .requestError => ⟨calls, [said], 1, [(said, sname, [])], none⟩
        | .error e => ⟨calls, [said], 0, [], some e⟩

/-- The eligible (destination, direction) pairs of a probe response, in
visit order, with the same exception behaviour as the accumulation loop:
this is the loop of `_probe_directions` without its deduplication step,
used to state what that deduplication computes. -/
def eligRawPairs : List Json → Except PyExc (List (Json × Json))
  | [] => .ok []
  | v :: vs =>
    match probeVisitDest v with
    | .error e => .error e
    | .ok p =>
      if p.1.truthy && !p.1.pyEq (.str "?") then
        if !p.1.hashable then .error .typeError
        else
          match eligRawPairs vs with
          | .error e => .error e
          | .ok rest => .ok (p :: rest)
      else eligRawPairs vs

/-- The accumulation loop of `_probe_directions` as a fold over
already-extracted pairs, used to relate the loop to `specFirstSeen`. -/
def fsInsertAll (acc raw : List (Json × Json)) : List (Json × Json) :=
  raw.foldl (fun a p => if a.any (fun kv => kv.1.pyEq p.1) then a else a ++ [p]) acc

/-- Modelled from the spec: "ordered-unique-by-destination map: the first
direction reference seen for a given destination is kept; later duplicates
of the same destination are ignored".  Stated as a recursion for comparison
with the accumulation loop of `_probe_directions`. -/
def specFirstSeen : List (Json × Json) → List (Json × Json)
  | [] => []
  | p :: rest => p :: specFirstSeen (rest.filter (fun q => !p.1.pyEq q.1))
termination_by l => l.length
decreasing_by
  exact Nat.lt_succ_of_le (List.length_filter_le _ _)

end api

/-! ## Sample data for the witness theorems -/

def sampleFav : models.Favourite :=
  { stop_area_id := "50980", stop_name := "Pavillon Halevy", line_id := "C02000",
    line_name := "259", direction := "1", destination_name := "Saint-Germain-En-Laye" }

def sampleFav2 : models.Favourite :=
  { stop_area_id := "50980", stop_name := "Pavillon Halevy", line_id := "C02000",
    line_name := "259", direction := "1", destination_name := "" }

/-- A well-typed parsed departure. -/
def sampleDep (dest dir exp : String) (eta : Int) : models.Departure :=
  { line_name := .str "259", line_id := .str "STIF:Line::C02000:",
    destination := .str dest, expected_iso := exp, departure_status := .str "onTime",
    vehicle_at_stop := .bool false, direction_ref := .str dir,
    fetch_timestamp := 0, eta_seconds := eta }

/-- A favourite at a terminus stop, for the terminus-exclusion witness. -/
def sampleFavC4 : models.Favourite :=
  { stop_area_id := "43114", stop_name := "Saint-Germain-en-Laye", line_id := "C01742",
    line_name := "A", direction := "1", destination_name := "" }

/-- Eight eligible departures with increasing expected times. -/
def sampleEight : List models.Departure :=
  [sampleDep "Marne-la-Vallee Chessy" "1" "2025-01-01T12:01:00+01:00" 60,
   sampleDep "Marne-la-Vallee Chessy" "1" "2025-01-01T12:02:00+01:00" 120,
   sampleDep "Marne-la-Vallee Chessy" "1" "2025-01-01T12:03:00+01:00" 180,
   sampleDep "Marne-la-Vallee Chessy" "1" "2025-01-01T12:04:00+01:00" 240,
   sampleDep "Marne-la-Vallee Chessy" "1" "2025-01-01T12:05:00+01:00" 300,
   sampleDep "Marne-la-Vallee Chessy" "1" "2025-01-01T12:06:00+01:00" 360,
   sampleDep "Marne-la-Vallee Chessy" "1" "2025-01-01T12:07:00+01:00" 420,
   sampleDep "Marne-la-Vallee Chessy" "1" "2025-01-01T12:08:00+01:00" 480]

/-- A stops-catalog oracle that always finds one record. -/
def sampleCatalog : String → api.ReqOutcome := fun _ =>
  .ok (.obj [("results", .arr [.obj [("arrname", .str "La Defense"),
    ("zdaid", .str "71517")]])]) 0

/-- A live-feed oracle that always fails with a transport error. -/
def sampleFeedDown : String → api.ReqOutcome := fun _ => .transportError

/-- A monitored-stop-visit JSON node in the shape the SIRI feed delivers. -/
def sampleVisit (dest dir exp : String) : Json :=
  .obj [("MonitoredVehicleJourney", .obj [
    ("PublishedLineName", .arr [.obj [("value", .str "259")]]),
    ("DestinationName", .arr [.obj [("value", .str dest)]]),
    ("LineRef", .obj [("value", .str "STIF:Line::C02000:")]),
    ("DirectionRef", .obj [("value", .str dir)]),
    ("MonitoredCall", .obj [
      ("ExpectedDepartureTime", .str exp),
      ("DepartureStatus", .str "onTime"),
      ("VehicleAtStop", .bool false)])])]

/-- A SIRI stop-monitoring body wrapping the given visits. -/
def sampleBody (vs : List Json) : Json :=
  .obj [("Siri", .obj [("ServiceDelivery", .obj [("StopMonitoringDelivery",
    .arr [.obj [("MonitoredStopVisit", .arr vs)]])])])]

/-- Probe visits with a duplicated destination (two direction refs). -/
def sampleProbeVisits : List Json :=
  [sampleVisit "Cergy-Le Haut" "1" "2025-01-01T12:00:00+01:00",
   sampleVisit "Cergy-Le Haut" "2" "2025-01-01T12:05:00+01:00",
   sampleVisit "Boissy-Saint-Leger" "2" "2025-01-01T12:06:00+01:00"]

/-! ## Theorems -/

/-- `a` occurs as a contiguous substring of `b`. -/
def SubstrOf (a b : String) : Prop := ∃ p q : String, b = p ++ a ++ q

theorem listStartsWith_iff : ∀ (l n : List Char), listStartsWith l n = true ↔ ∃ t, l = n ++ t
  | l, [] => by simp [listStartsWith]
  | [], n :: ns => by simp [listStartsWith]
  | h :: hs, n :: ns => by
    simp only [listStartsWith, Bool.and_eq_true, decide_eq_true_eq,
      listStartsWith_iff hs ns, List.cons_append, List.cons.injEq]
    constructor
    · rintro ⟨rfl, t, rfl⟩
      exact ⟨t, rfl, rfl⟩
    · rintro ⟨t, rfl, rfl⟩
      exact ⟨rfl, t, rfl⟩

theorem listHasSub_iff : ∀ (l n : List Char), listHasSub l n = true ↔ ∃ p t, l = p ++ (n ++ t)
  | [], n => by
    cases n with
    | nil => simp [listHasSub, List.isEmpty]
    | cons a ns => simp [listHasSub, List.isEmpty]
  | h :: hs, n => by
    simp only [listHasSub, Bool.or_eq_true, listStartsWith_iff, listHasSub_iff hs n]
    constructor
    · rintro (⟨t, ht⟩ | ⟨p, t, rfl⟩)
      · exact ⟨[], t, by simpa using ht⟩
      · exact ⟨h :: p, t, rfl⟩
    · rintro ⟨p, t, hp⟩
      cases p with
      | nil => exact Or.inl ⟨t, by simpa using hp⟩
      | cons a p' =>
        simp only [List.cons_append, List.cons.injEq] at hp
        exact Or.inr ⟨p', t, hp.2⟩

theorem strContains_iff (hay needle : String) :
    strContains hay needle = true ↔ SubstrOf needle hay := by
  rw [strContains, listHasSub_iff]
  constructor
  · rintro ⟨p, t, h⟩
    refine ⟨String.mk p, String.mk t, String.ext ?_⟩
    simpa [String.data_append] using h
  · rintro ⟨p, q, rfl⟩
    exact ⟨p.toList, q.toList, by simp [String.toList, String.data_append]⟩

theorem substrOf_empty {a : String} (h : SubstrOf a "") : a = "" := by
  obtain ⟨p, q, hp⟩ := h
  have := congrArg String.data hp
  simp only [String.data_append] at this
  rcases List.append_eq_nil.mp (List.append_eq_nil.mp this.symm).1 with ⟨-, h2⟩
  exact String.ext (by simpa using h2)

theorem is_same_place_empty_left (b : String) : is_same_place "" b = false := by
  simp [is_same_place]

theorem is_same_place_empty_right (a : String) : is_same_place a "" = false := by
  simp [is_same_place]

theorem is_same_place_ne {a b : String} (ha : a ≠ "") (hb : b ≠ "") :
    is_same_place a b = (strContains b a || strContains a b) := by
  simp [is_same_place, ha, hb]

/-- C9: `is_same_place(a, b)` on already-normalized strings returns true iff
one of them is a non-empty substring of the other (in either direction),
and returns false whenever either input is the empty string. -/
theorem claim_C9 (a b : String) :
    (is_same_place a b = true ↔ ((a ≠ "" ∧ SubstrOf a b) ∨ (b ≠ "" ∧ SubstrOf b a))) ∧
    ((a = "" ∨ b = "") → is_same_place a b = false) := by
  constructor
  · by_cases ha : a = ""
    · subst ha
      rw [is_same_place_empty_left]
      constructor
      · intro h
        simp at h
      · rintro (⟨h, -⟩ | ⟨hb, hs⟩)
        · exact absurd rfl h
        · exact absurd (substrOf_empty hs) hb
    · by_cases hb : b = ""
      · subst hb
        rw [is_same_place_empty_right]
        constructor
        · intro h
          simp at h
        · rintro (⟨ha', hs⟩ | ⟨h, -⟩)
          · exact absurd (substrOf_empty hs) ha'
          · exact absurd rfl h
      · rw [is_same_place_ne ha hb]
        simp only [Bool.or_eq_true, strContains_iff]
        constructor
        · rintro (h | h)
          · exact Or.inl ⟨ha, h⟩
          · exact Or.inr ⟨hb, h⟩
        · rintro (⟨-, h⟩ | ⟨-, h⟩)
          · exact Or.inl h
          · exact Or.inr h
  · rintro (rfl | rfl)
    · exact is_same_place_empty_left b
    · exact is_same_place_empty_right a

theorem claim_C9_witness :
    is_same_place "saint germain" "saint germain en laye" = true ∧
    is_same_place "" "x" = false :=
  ⟨(claim_C9 "saint germain" "saint germain en laye").1.mpr
      (Or.inl ⟨by decide, "", " en laye", by decide⟩),
    (claim_C9 "" "x").2 (Or.inl rfl)⟩

theorem pyEq_str_iff (x : Json) (s : String) : x.pyEq (.str s) = true ↔ x = .str s := by
  cases x with
  | null => simp [show Json.pyEq .null (.str s) = false from rfl]
  | bool b => simp [show Json.pyEq (.bool b) (.str s) = false from rfl]
  | num n => simp [show Json.pyEq (.num n) (.str s) = false from rfl]
  | str a => simp [show Json.pyEq (.str a) (.str s) = decide (a = s) from rfl]
  | arr xs => simp [show Json.pyEq (.arr xs) (.str s) = false from rfl]
  | obj kvs => simp [show Json.pyEq (.obj kvs) (.str s) = false from rfl]

theorem filterME_mem {α : Type} (p : α → Except PyExc Bool) :
    ∀ (xs l : List α), api.filterME p xs = .ok l → ∀ d ∈ l, p d = .ok true ∧ d ∈ xs := by
  intro xs
  induction xs with
  | nil =>
    intro l h d hd
    simp only [api.filterME, Except.ok.injEq] at h
    subst h
    simp at hd
  | cons x xs ih =>
    intro l h d hd
    rw [api.filterME] at h
    cases hpx : p x with
    | error e =>
      rw [hpx] at h
      cases h
    | ok b =>
      rw [hpx] at h
      cases hrest : api.filterME p xs with
      | error e =>
        rw [hrest] at h
        cases h
      | ok rest =>
        rw [hrest] at h
        simp only [Except.ok.injEq] at h
        subst h
        cases b with
        | true =>
          simp only [if_pos rfl] at hd
          rcases List.mem_cons.mp hd with rfl | hdr
          · exact ⟨hpx, List.mem_cons_self _ _⟩
          · obtain ⟨h1, h2⟩ := ih rest hrest d hdr
            exact ⟨h1, List.mem_cons_of_mem _ h2⟩
        | false =>
          simp only [Bool.false_eq_true, if_neg] at hd
          obtain ⟨h1, h2⟩ := ih rest hrest d hd
          exact ⟨h1, List.mem_cons_of_mem _ h2⟩

/-- The per-favourite filter predicate, on a string destination, as one
boolean conjunction. -/
theorem keepDep_str {fav : models.Favourite} {sn : String} {d : models.Departure}
    {s : String} (hdest : d.destination = .str s) :
    api.keepDep fav sn d = .ok (
      !decide (d.eta_seconds < 0) &&
      (strContains (lowerStr s) (lowerStr fav.destination_name) &&
       ((decide (fav.direction = "") || d.direction_ref.pyEq (.str fav.direction)) &&
        !is_same_place sn (models.normalize s)))) := by
  rw [api.keepDep, hdest]
  by_cases h1 : d.eta_seconds < 0
  · simp [h1]
  · by_cases h2 : strContains (lowerStr s) (lowerStr fav.destination_name) = true
    · by_cases h3 :
        (decide (fav.direction = "") || d.direction_ref.pyEq (.str fav.direction)) = true
      · simp [h1, h2, h3]
      · simp only [Bool.not_eq_true] at h3
        simp [h1, h2, h3]
    · simp only [Bool.not_eq_true] at h2
      simp [h1, h2]

/-- The per-favourite filter rejects with `AttributeError` on a non-string
destination only after the eta test passes; either way it never keeps such
a departure. -/
theorem keepDep_not_ok_true_of_not_str {fav : models.Favourite} {sn : String}
    {d : models.Departure} (hdest : ∀ s, d.destination ≠ .str s) :
    api.keepDep fav sn d ≠ .ok true := by
  rw [api.keepDep]
  by_cases heta : d.eta_seconds < 0
  · simp [heta]
  · simp only [if_neg heta]
    cases hd : d.destination with
    | str s => exact absurd hd (hdest s)
    | null => simp
    | bool b => simp
    | num n => simp
    | arr xs => simp
    | obj kvs => simp

/-- C3: in the per-favourite filter of the departure aggregator, a
departure is kept only if its `direction_ref` equals the favourite's
non-empty direction exactly; with an empty direction the filter's outcome
does not depend on the departure's `direction_ref` at all. -/
theorem claim_C3 (fav : models.Favourite) (allDeps l : List models.Departure)
    (d : models.Departure) (r : Json)
    (h : api.matchedDeps fav allDeps = .ok l) :
    (fav.direction ≠ "" → d ∈ l → d.direction_ref = .str fav.direction) ∧
    (fav.direction = "" →
      api.keepDep fav (models.normalize fav.stop_name) { d with direction_ref := r } =
        api.keepDep fav (models.normalize fav.stop_name) d) := by
  constructor
  · intro hdir hd
    have hk := (filterME_mem _ allDeps l h d hd).1
    cases hdest : d.destination with
    | str s =>
      rw [keepDep_str hdest] at hk
      simp only [Except.ok.injEq, Bool.and_eq_true, Bool.or_eq_true,
        decide_eq_true_eq] at hk
      rcases hk.2.2.1 with hc | hc
      · exact absurd hc hdir
      · exact (pyEq_str_iff _ _).mp hc
    | null => exact absurd hk (keepDep_not_ok_true_of_not_str (by simp [hdest]))
    | bool b => exact absurd hk (keepDep_not_ok_true_of_not_str (by simp [hdest]))
    | num n => exact absurd hk (keepDep_not_ok_true_of_not_str (by simp [hdest]))
    | arr xs => exact absurd hk (keepDep_not_ok_true_of_not_str (by simp [hdest]))
    | obj kvs => exact absurd hk (keepDep_not_ok_true_of_not_str (by simp [hdest]))
  · intro hdir
    rcases d with ⟨ln, li, dest, ei, ds, va, dr, ft, eta⟩
    by_cases heta : eta < 0
    · simp [api.keepDep, heta]
    · cases dest <;> simp [api.keepDep, heta, hdir]

theorem claim_C3_witness :
    (sampleDep "Saint-Germain-En-Laye <RER>" "1" "2025-01-01T12:00:00+01:00" 300).direction_ref =
      .str sampleFav.direction :=
  (claim_C3 sampleFav
      [sampleDep "Saint-Germain-En-Laye <RER>" "1" "2025-01-01T12:00:00+01:00" 300]
      [sampleDep "Saint-Germain-En-Laye <RER>" "1" "2025-01-01T12:00:00+01:00" 300]
      (sampleDep "Saint-Germain-En-Laye <RER>" "1" "2025-01-01T12:00:00+01:00" 300)
      (.str "2") rfl).1 (by decide) (List.mem_singleton.mpr rfl)

/-- C4: a departure whose normalized destination is "the same place" as the
favourite's normalized stop name is excluded from that favourite's filtered
list, whatever the other criteria say. -/
theorem claim_C4 (fav : models.Favourite) (allDeps l : List models.Departure)
    (d : models.Departure) (s : String)
    (h : api.matchedDeps fav allDeps = .ok l)
    (hdest : d.destination = .str s)
    (hsame : is_same_place (models.normalize fav.stop_name) (models.normalize s) = true) :
    d ∉ l := by
  intro hd
  have hk := (filterME_mem _ allDeps l h d hd).1
  rw [keepDep_str hdest] at hk
  simp only [Except.ok.injEq, Bool.and_eq_true] at hk
  have hlast := hk.2.2.2
  rw [hsame] at hlast
  cases hlast

theorem claim_C4_witness :
    sampleDep "Saint-Germain-En-Laye <RER>" "1" "2025-01-01T12:15:00+01:00" 900 ∉
      [sampleDep "Marne-la-Vallee Chessy" "1" "2025-01-01T12:10:00+01:00" 600] :=
  claim_C4 sampleFavC4
    [sampleDep "Marne-la-Vallee Chessy" "1" "2025-01-01T12:10:00+01:00" 600,
     sampleDep "Saint-Germain-En-Laye <RER>" "1" "2025-01-01T12:15:00+01:00" 900]
    [sampleDep "Marne-la-Vallee Chessy" "1" "2025-01-01T12:10:00+01:00" 600]
    (sampleDep "Saint-Germain-En-Laye <RER>" "1" "2025-01-01T12:15:00+01:00" 900)
    "Saint-Germain-En-Laye <RER>" rfl rfl rfl

/-- C5: for a favourite whose filter keeps the list `l`, the emitted list
is sorted ascending by the expected-time string, has length `min |l| 5`,
and consists of earliest entries: every kept entry's key is at most every
dropped entry's key. -/
theorem claim_C5 (fav : models.Favourite) (allDeps l : List models.Departure)
    (_h : api.matchedDeps fav allDeps = .ok l) :
    (api.rankTruncate l).length = min l.length 5 ∧
    (api.rankTruncate l).Pairwise (fun a b => api.depLe a b = true) ∧
    ∃ rest, l.Perm (api.rankTruncate l ++ rest) ∧
      ∀ a ∈ api.rankTruncate l, ∀ b ∈ rest, api.depLe a b = true := by
  have trans : ∀ a b c : models.Departure,
      api.depLe a b → api.depLe b c → api.depLe a c := by
    intro a b c hab hbc
    simp only [api.depLe, decide_eq_true_eq] at hab hbc ⊢
    exact le_trans hab hbc
  have total : ∀ a b : models.Departure, api.depLe a b || api.depLe b a := by
    intro a b
    simp only [api.depLe, Bool.or_eq_true, decide_eq_true_eq]
    exact le_total _ _
  have hsorted := List.sorted_mergeSort trans total l
  refine ⟨?_, ?_, (l.mergeSort api.depLe).drop 5, ?_, ?_⟩
  · simp [api.rankTruncate, Nat.min_comm]
  · exact List.Pairwise.sublist (List.take_sublist 5 _) hsorted
  · exact (List.mergeSort_perm l api.depLe).symm.trans
      (List.Perm.of_eq (List.take_append_drop 5 _).symm)
  · intro a ha b hb
    rw [← List.take_append_drop 5 (l.mergeSort api.depLe)] at hsorted
    exact (List.pairwise_append.mp hsorted).2.2 a ha b hb

theorem claim_C5_witness :
    (api.rankTruncate sampleEight).length = min sampleEight.length 5 :=
  (claim_C5 sampleFav2 sampleEight sampleEight rfl).1

/-- C6: the stop resolver branches purely on identifier shape.  With the
rail/metro marker (`"monomodalStopPlace" in stop_id`) it returns the
trailing colon-separated component as the stop-area id, an empty stop name,
and performs zero catalog calls.  Without the marker it performs exactly
one catalog lookup keyed by the trailing component and returns
`("", "")` when the catalog returns no record. -/
theorem claim_C6 (stopId : String) (catalog : String → api.ReqOutcome) :
    (strContains stopId "monomodalStopPlace" = true →
      api.resolveStop stopId catalog =
        (.ok (api.lastColonPiece stopId, Json.str ""), [])) ∧
    (strContains stopId "monomodalStopPlace" = false →
      (api.resolveStop stopId catalog).2 =
        [if strContains stopId ":" then api.lastColonPiece stopId else stopId] ∧
      ∀ body ts,
        catalog (if strContains stopId ":" then api.lastColonPiece stopId else stopId) =
          .ok body ts →
        body.dictGet "results" (.arr []) = .ok (.arr []) →
        (api.resolveStop stopId catalog).1 = .ok ("", Json.str "")) := by
  constructor
  · intro hm
    simp [api.resolveStop, hm]
  · intro hm
    constructor
    · simp only [api.resolveStop, hm, Bool.false_eq_true, if_false]
      cases hcat :
          catalog (if strContains stopId ":" then api.lastColonPiece stopId else stopId) with
      | transportError => rfl
      | ok body ts => rfl
    · intro body ts hcat hres
      simp only [api.resolveStop, hm, Bool.false_eq_true, if_false, hcat, hres,
        Json.truthy, List.isEmpty_nil, Bool.not_true]

theorem claim_C6_witness :
    api.resolveStop "IDFM:monomodalStopPlace:470195" sampleFeedDown =
      (.ok (api.lastColonPiece "IDFM:monomodalStopPlace:470195", Json.str ""), []) :=
  (claim_C6 "IDFM:monomodalStopPlace:470195" sampleFeedDown).1 rfl

/-- C7: when stop resolution succeeds with a non-empty stop-area id and the
direction probe's network call fails with a transport error, the terminal
event still carries the resolved id and name with an empty direction list,
exactly one error event is emitted, and the run does not crash. -/
theorem claim_C7 (stopId lineId : String) (catalog feed : String → api.ReqOutcome)
    (said : String) (sname : Json)
    (hres : (api.resolveStop stopId catalog).1 = .ok (said, sname))
    (hs : said ≠ "")
    (hfeed : feed said = .transportError) :
    (api.ResolveAndProbeWorker.run stopId lineId catalog feed).finishedEvents =
      [(said, sname, [])] ∧
    (api.ResolveAndProbeWorker.run stopId lineId catalog feed).errorEvents = 1 ∧
    (api.ResolveAndProbeWorker.run stopId lineId catalog feed).crashed = none := by
  obtain ⟨calls, hrp⟩ :
      ∃ calls, api.resolveStop stopId catalog = (.ok (said, sname), calls) :=
    ⟨(api.resolveStop stopId catalog).2, by rw [← hres]⟩
  simp [api.ResolveAndProbeWorker.run, hrp, hs, hfeed]

theorem claim_C7_witness :
    (api.ResolveAndProbeWorker.run "IDFM:470549" "C01740" sampleCatalog
        sampleFeedDown).finishedEvents = [("71517", Json.str "La Defense", [])] ∧
    (api.ResolveAndProbeWorker.run "IDFM:470549" "C01740" sampleCatalog
        sampleFeedDown).errorEvents = 1 ∧
    (api.ResolveAndProbeWorker.run "IDFM:470549" "C01740" sampleCatalog
        sampleFeedDown).crashed = none :=
  claim_C7 "IDFM:470549" "C01740" sampleCatalog sampleFeedDown
    "71517" (.str "La Defense") rfl (by decide) rfl

/-- C2 counterexample: a live-feed payload whose top-level JSON value is an
array (a valid JSON body) makes `data["Siri"]` raise `TypeError`, which
neither the `except (KeyError, IndexError)` of `_parse_departures` nor the
`except (requests.RequestException) / except (KeyError, ValueError)` of
`DepartureWorker.run` catches; the worker aborts and the terminal
`finished` event is never emitted. -/
theorem claim_C2_counterexample :
    (api.DepartureWorker.run [sampleFav]
        (fun _ => .ok (Json.arr []) 0)).finishedEvents.length = 0 ∧
    (api.DepartureWorker.run [sampleFav]
        (fun _ => .ok (Json.arr []) 0)).crashed = some PyExc.typeError :=
  ⟨rfl, rfl⟩

/-- C2 (amended): every unit of work emits exactly one terminal result
event on every execution in which its payload handling raises only the
exception classes the worker catches — equivalently, on every execution
that does not abort with an uncaught exception; an execution that does
abort emits no terminal event. -/
theorem claim_C2_amended :
    (∀ (favs : List models.Favourite) (fetch : String × String → api.ReqOutcome),
      ((api.DepartureWorker.run favs fetch).crashed = none →
        (api.DepartureWorker.run favs fetch).finishedEvents.length = 1) ∧
      ((api.DepartureWorker.run favs fetch).crashed ≠ none →
        (api.DepartureWorker.run favs fetch).finishedEvents.length = 0)) ∧
    (∀ (q m : String) (sid : Int) (outcome : api.ReqOutcome),
      ((api.LineSearchWorker.run q m sid outcome).crashed = none →
        (api.LineSearchWorker.run q m sid outcome).finishedEvents.length = 1) ∧
      ((api.LineSearchWorker.run q m sid outcome).crashed ≠ none →
        (api.LineSearchWorker.run q m sid outcome).finishedEvents.length = 0)) ∧
    (∀ (rid : String) (outcome : api.ReqOutcome),
      ((api.StopsOnLineWorker.run rid outcome).crashed = none →
        (api.StopsOnLineWorker.run rid outcome).finishedEvents.length = 1) ∧
      ((api.StopsOnLineWorker.run rid outcome).crashed ≠ none →
        (api.StopsOnLineWorker.run rid outcome).finishedEvents.length = 0)) ∧
    (∀ (sid lid : String) (cat feed : String → api.ReqOutcome),
      ((api.ResolveAndProbeWorker.run sid lid cat feed).crashed = none →
        (api.ResolveAndProbeWorker.run sid lid cat feed).finishedEvents.length = 1) ∧
      ((api.ResolveAndProbeWorker.run sid lid cat feed).crashed ≠ none →
        (api.ResolveAndProbeWorker.run sid lid cat feed).finishedEvents.length = 0)) := by
  refine ⟨?_, ?_, ?_, ?_⟩
  · intro favs fetch
    rcases h : api.depLoop fetch (api.depGroups favs) [] [] 0 with ⟨res, reqs, errs, crash⟩
    cases crash <;> simp [api.DepartureWorker.run, h]
  · intro q m sid outcome
    cases outcome with
    | transportError => simp [api.LineSearchWorker.run]
    | ok body ts =>
      cases h : api.lsParse body with
      | error e => simp [api.LineSearchWorker.run, h]
      | ok rs => simp [api.LineSearchWorker.run, h]
  · intro rid outcome
    cases outcome with
    | transportError => simp [api.StopsOnLineWorker.run]
    | ok body ts =>
      cases h : api.solParse body with
      | error e => simp [api.StopsOnLineWorker.run, h]
      | ok rs => simp [api.StopsOnLineWorker.run, h]
  · intro sid lid cat feed
    rcases hr : api.resolveStop sid cat with ⟨r, calls⟩
    cases r with
    | error e =>
      cases e <;> simp [api.ResolveAndProbeWorker.run, hr]
    | ok pr =>
      rcases pr with ⟨said, sname⟩
      by_cases hsaid : said = ""
      · simp [api.ResolveAndProbeWorker.run, hr, hsaid]
      · cases hf : feed said with
        | transportError => simp [api.ResolveAndProbeWorker.run, hr, hsaid, hf]
        | ok body ts =>
          cases hp : api.probeParse body with
          | error e =>
            cases e <;> simp [api.ResolveAndProbeWorker.run, hr, hsaid, hf, hp]
          | ok dirs => simp [api.ResolveAndProbeWorker.run, hr, hsaid, hf, hp]

theorem claim_C2_amended_witness :
    (api.DepartureWorker.run [sampleFav]
      (fun _ => api.ReqOutcome.transportError)).finishedEvents.length = 1 ∧
    (api.LineSearchWorker.run "259" "bus" 0 .transportError).finishedEvents.length = 1 ∧
    (api.StopsOnLineWorker.run "IDFM:C02000" .transportError).finishedEvents.length = 1 ∧
    (api.ResolveAndProbeWorker.run "IDFM:470549" "C01740" sampleCatalog
      sampleFeedDown).finishedEvents.length = 1 :=
  ⟨(claim_C2_amended.1 [sampleFav] (fun _ => api.ReqOutcome.transportError)).1 rfl,
   (claim_C2_amended.2.1 "259" "bus" 0 .transportError).1 rfl,
   (claim_C2_amended.2.2.1 "IDFM:C02000" .transportError).1 rfl,
   (claim_C2_amended.2.2.2 "IDFM:470549" "C01740" sampleCatalog sampleFeedDown).1 rfl⟩

theorem probeLoop_eq_fsInsertAll :
    ∀ (vs : List Json) (acc : List (Json × Json)),
      api.probeLoop vs acc = (api.eligRawPairs vs).map (api.fsInsertAll acc) := by
  intro vs
  induction vs with
  | nil =>
    intro acc
    simp [api.probeLoop, api.eligRawPairs, api.fsInsertAll, Except.map]
  | cons v vs ih =>
    intro acc
    rw [api.probeLoop, api.eligRawPairs]
    cases hp : api.probeVisitDest v with
    | error e => simp [Except.map]
    | ok p =>
      by_cases he : (p.1.truthy && !p.1.pyEq (.str "?")) = true
      · by_cases hh : p.1.hashable = true
        · simp only [he, if_true, hh, Bool.not_true, Bool.false_eq_true, if_false]
          by_cases hm : acc.any (fun kv => kv.1.pyEq p.1) = true
          · rw [if_pos hm, ih acc]
            cases hr : api.eligRawPairs vs with
            | error e => simp [Except.map]
            | ok rest => simp [Except.map, api.fsInsertAll, hm]
          · rw [if_neg hm, ih (acc ++ [p])]
            cases hr : api.eligRawPairs vs with
            | error e => simp [Except.map]
            | ok rest => simp [Except.map, api.fsInsertAll, hm]
        · simp only [Bool.not_eq_true] at hh
          simp [he, hh, Except.map]
      · simp only [Bool.not_eq_true] at he
        simp only [he, Bool.false_eq_true, if_false]
        exact ih acc

theorem fsInsertAll_eq_spec :
    ∀ (raw acc : List (Json × Json)),
      api.fsInsertAll acc raw =
        acc ++ api.specFirstSeen
          (raw.filter (fun q => !(acc.any (fun kv => kv.1.pyEq q.1)))) := by
  intro raw
  induction raw with
  | nil =>
    intro acc
    simp [api.fsInsertAll, api.specFirstSeen]
  | cons p raw ih =>
    intro acc
    have hstep : api.fsInsertAll acc (p :: raw) =
        api.fsInsertAll (if acc.any (fun kv => kv.1.pyEq p.1) then acc else acc ++ [p]) raw := by
      simp [api.fsInsertAll, List.foldl_cons]
    by_cases hm : acc.any (fun kv => kv.1.pyEq p.1) = true
    · rw [hstep, if_pos hm, ih acc]
      simp only [List.filter_cons, hm, Bool.not_true, Bool.false_eq_true, if_false]
    · rw [hstep, if_neg hm, ih (acc ++ [p])]
      simp only [Bool.not_eq_true] at hm
      simp only [List.filter_cons, hm, Bool.not_false, if_true]
      rw [api.specFirstSeen]
      rw [List.append_assoc, List.singleton_append]
      congr 2
      rw [List.filter_filter]
      congr 1
      apply List.filter_congr
      intro q hq
      simp only [List.any_append, List.any_cons, List.any_nil, Bool.or_false,
        Bool.not_or]
      rw [Bool.and_comm]

theorem mem_specFirstSeen :
    ∀ (l : List (Json × Json)) (q : Json × Json), q ∈ api.specFirstSeen l → q ∈ l := by
  intro l
  induction l using api.specFirstSeen.induct with
  | case1 =>
    intro q hq
    simp [api.specFirstSeen] at hq
  | case2 p rest ih =>
    intro q hq
    rw [api.specFirstSeen] at hq
    rcases List.mem_cons.mp hq with rfl | hq'
    · exact List.mem_cons_self _ _
    · exact List.mem_cons_of_mem _ (List.mem_of_mem_filter (ih q hq'))

theorem specFirstSeen_pairwise (l : List (Json × Json)) :
    (api.specFirstSeen l).Pairwise (fun a b => a.1.pyEq b.1 = false) := by
  induction l using api.specFirstSeen.induct with
  | case1 => simp [api.specFirstSeen]
  | case2 p rest ih =>
    rw [api.specFirstSeen]
    refine List.Pairwise.cons ?_ ih
    intro q hq
    have hmem := mem_specFirstSeen _ q hq
    have := (List.mem_filter.mp hmem).2
    simpa using this

/-- C8 counterexample: a response whose top-level JSON value is an array
lacks the expected delivery structure, yet `_probe_directions` raises
`TypeError` (from `data["Siri"]`) instead of returning the empty list — the
`except (KeyError, IndexError)` clause does not cover it. -/
theorem claim_C8_counterexample :
    api.probeParse (Json.arr []) = .error PyExc.typeError := rfl

/-- C8 (amended): whenever `_probe_directions` returns normally, its result
is unique by destination in first-seen order, each destination paired with
the first direction reference seen for it (the first-seen accumulation of
the eligible visit pairs); structure missing by way of absent keys or an
empty delivery array (`KeyError`/`IndexError`) yields the empty list.
Responses with wrong JSON types at the accessed positions raise
(`TypeError`/`AttributeError`) instead of returning. -/
theorem claim_C8_amended (body : Json) (l : List (Json × Json))
    (h : api.probeParse body = .ok l) :
    l.Pairwise (fun a b => a.1.pyEq b.1 = false) ∧
    (api.deliveryVisitsCaught body = .ok none → l = []) ∧
    (∀ visitsJson visits, api.deliveryVisitsCaught body = .ok (some visitsJson) →
      visitsJson.pyIter = .ok visits →
      ∃ raw, api.eligRawPairs visits = .ok raw ∧ l = api.specFirstSeen raw) := by
  rw [api.probeParse] at h
  split at h
  · cases h
  · rename_i hd
    injection h with h
    subst h
    refine ⟨List.Pairwise.nil, fun _ => rfl, ?_⟩
    intro vj vs hvj hit
    rw [hd] at hvj
    cases hvj
  · rename_i vj hd
    split at h
    · cases h
    · rename_i visits hit
      rw [probeLoop_eq_fsInsertAll] at h
      cases hr : api.eligRawPairs visits with
      | error e =>
        rw [hr] at h
        cases h
      | ok raw =>
        rw [hr] at h
        simp only [Except.map, Except.ok.injEq] at h
        have hl : l = api.specFirstSeen raw := by
          rw [← h, fsInsertAll_eq_spec]
          simp
        refine ⟨hl ▸ specFirstSeen_pairwise raw, ?_, ?_⟩
        · intro h0
          rw [hd] at h0
          cases h0
        · intro vj' vs' hvj' hit'
          rw [hd] at hvj'
          injection hvj' with h1
          injection h1 with h1
          subst h1
          rw [hit] at hit'
          injection hit' with h2
          subst h2
          exact ⟨raw, hr, hl⟩

theorem claim_C8_amended_witness :
    ∃ raw, api.eligRawPairs sampleProbeVisits = .ok raw ∧
      [(Json.str "Cergy-Le Haut", Json.str "1"),
       (Json.str "Boissy-Saint-Leger", Json.str "2")] = api.specFirstSeen raw :=
  (claim_C8_amended (sampleBody sampleProbeVisits)
      [(Json.str "Cergy-Le Haut", Json.str "1"),
       (Json.str "Boissy-Saint-Leger", Json.str "2")] rfl).2.2
    (.arr sampleProbeVisits) sampleProbeVisits rfl rfl

theorem insertReplace_lookup_self {α : Type} :
    ∀ (m : List (String × α)) (k : String) (v : α),
      (api.insertReplace m k v).lookup k = some v := by
  intro m
  induction m with
  | nil => intro k v; simp [api.insertReplace, List.lookup]
  | cons kv m ih =>
    intro k v
    rcases kv with ⟨k', v'⟩
    by_cases h : k' = k
    · subst h
      simp [api.insertReplace, List.lookup]
    · rw [api.insertReplace, if_neg h]
      show (List.lookup k ((k', v') :: api.insertReplace m k v)) = some v
      rw [List.lookup, show (k == k') = false from beq_eq_false_iff_ne.mpr (Ne.symm h)]
      exact ih k v

theorem insertReplace_lookup_other {α : Type} :
    ∀ (m : List (String × α)) (k : String) (v : α) (k' : String), k' ≠ k →
      (api.insertReplace m k v).lookup k' = m.lookup k' := by
  intro m
  induction m with
  | nil =>
    intro k v k' hk
    rw [api.insertReplace]
    show (List.lookup k' [(k, v)]) = List.lookup k' []
    simp only [List.lookup]
    rw [show (k' == k) = false from beq_eq_false_iff_ne.mpr hk]
  | cons kv m ih =>
    intro k v k' hk
    rcases kv with ⟨q, w⟩
    by_cases h : q = k
    · subst h
      rw [api.insertReplace, if_pos rfl]
      show (List.lookup k' ((q, v) :: m)) = List.lookup k' ((q, w) :: m)
      rw [List.lookup, List.lookup,
        show (k' == q) = false from beq_eq_false_iff_ne.mpr hk]
    · rw [api.insertReplace, if_neg h]
      show (List.lookup k' ((q, w) :: api.insertReplace m k v)) =
        List.lookup k' ((q, w) :: m)
      rw [List.lookup, List.lookup]
      by_cases hq : k' = q
      · rw [show (k' == q) = true from beq_iff_eq.mpr hq]
      · rw [show (k' == q) = false from beq_eq_false_iff_ne.mpr hq]
        exact ih k v k' hk

theorem insertReplace_keys {α : Type} :
    ∀ (m : List (String × α)) (k : String) (v : α),
      (api.insertReplace m k v).map Prod.fst =
        if k ∈ m.map Prod.fst then m.map Prod.fst else m.map Prod.fst ++ [k] := by
  intro m
  induction m with
  | nil => intro k v; simp [api.insertReplace]
  | cons kv m ih =>
    intro k v
    rcases kv with ⟨q, w⟩
    by_cases h : q = k
    · subst h
      simp [api.insertReplace]
    · simp only [api.insertReplace, if_neg h, List.map_cons, ih]
      by_cases hm : k ∈ m.map Prod.fst
      · rw [if_pos hm, if_pos (by simp [hm])]
      · rw [if_neg hm, if_neg (by simp [hm, Ne.symm h]), List.cons_append]

theorem insertReplace_keys_nodup {α : Type} (m : List (String × α)) (k : String) (v : α)
    (h : (m.map Prod.fst).Nodup) : ((api.insertReplace m k v).map Prod.fst).Nodup := by
  rw [insertReplace_keys]
  by_cases hm : k ∈ m.map Prod.fst
  · rwa [if_pos hm]
  · rw [if_neg hm]
    refine List.Nodup.append h (List.nodup_singleton k) ?_
    intro a ha hb
    rw [List.mem_singleton] at hb
    subst hb
    exact hm ha

theorem lookup_mem_keys {α : Type} :
    ∀ (m : List (String × α)) (k : String) (v : α),
      m.lookup k = some v → k ∈ m.map Prod.fst := by
  intro m
  induction m with
  | nil => intro k v h; simp [List.lookup] at h
  | cons kv m ih =>
    intro k v h
    rcases kv with ⟨q, w⟩
    by_cases hq : k = q
    · subst hq
      simp
    · rw [List.lookup, show (k == q) = false from beq_eq_false_iff_ne.mpr hq] at h
      exact List.mem_cons_of_mem _ (ih k v h)

theorem keepDep_error_attr (fav : models.Favourite) (sn : String) (d : models.Departure) :
    ∀ e, api.keepDep fav sn d = .error e → e = .attributeError := by
  intro e h
  by_cases heta : d.eta_seconds < 0
  · rw [api.keepDep, if_pos heta] at h
    cases h
  · cases hdest : d.destination with
    | str s =>
      rw [keepDep_str hdest] at h
      cases h
    | null =>
      rw [api.keepDep, if_neg heta, hdest] at h
      have h' : (Except.error PyExc.attributeError : Except PyExc Bool) = .error e := h
      injection h' with h''
      exact h''.symm
    | bool b =>
      rw [api.keepDep, if_neg heta, hdest] at h
      have h' : (Except.error PyExc.attributeError : Except PyExc Bool) = .error e := h
      injection h' with h''
      exact h''.symm
    | num n =>
      rw [api.keepDep, if_neg heta, hdest] at h
      have h' : (Except.error PyExc.attributeError : Except PyExc Bool) = .error e := h
      injection h' with h''
      exact h''.symm
    | arr xs =>
      rw [api.keepDep, if_neg heta, hdest] at h
      have h' : (Except.error PyExc.attributeError : Except PyExc Bool) = .error e := h
      injection h' with h''
      exact h''.symm
    | obj kvs =>
      rw [api.keepDep, if_neg heta, hdest] at h
      have h' : (Except.error PyExc.attributeError : Except PyExc Bool) = .error e := h
      injection h' with h''
      exact h''.symm

theorem filterME_error {α : Type} (p : α → Except PyExc Bool)
    (hp : ∀ x e, p x = .error e → e = .attributeError) :
    ∀ (xs : List α) (e : PyExc), api.filterME p xs = .error e → e = .attributeError := by
  intro xs
  induction xs with
  | nil => intro e h; cases h
  | cons x xs ih =>
    intro e h
    rw [api.filterME] at h
    cases hpx : p x with
    | error e' =>
      rw [hpx] at h
      injection h with h'
      rw [← h']
      exact hp x e' hpx
    | ok b =>
      rw [hpx] at h
      cases hrest : api.filterME p xs with
      | error e' =>
        rw [hrest] at h
        injection h with h'
        rw [← h']
        exact ih e' hrest
      | ok rest =>
        rw [hrest] at h
        cases h

theorem matchedDeps_error_attr (fav : models.Favourite) (deps : List models.Departure) :
    ∀ e, api.matchedDeps fav deps = .error e → e = .attributeError :=
  filterME_error (api.keepDep fav (models.normalize fav.stop_name))
    (fun d e h => keepDep_error_attr fav (models.normalize fav.stop_name) d e h) deps

theorem distribFavs_lookup_other (deps : List models.Departure) (fk : String) :
    ∀ (gfavs : List models.Favourite) (res res' : List (String × List models.Departure))
      (c : Option PyExc),
      api.distribFavs deps gfavs res = (res', c) →
      (∀ f ∈ gfavs, api.favKey f ≠ fk) →
      res'.lookup fk = res.lookup fk := by
  intro gfavs
  induction gfavs with
  | nil =>
    intro res res' c h hne
    rw [api.distribFavs] at h
    simp only [Prod.mk.injEq] at h
    rw [← h.1]
  | cons fav gfavs ih =>
    intro res res' c h hne
    rw [api.distribFavs] at h
    cases hm : api.matchedDeps fav deps with
    | error e =>
      rw [hm] at h
      simp only [Prod.mk.injEq] at h
      rw [← h.1]
    | ok m =>
      rw [hm] at h
      have hstep := ih _ res' c h (fun f hf => hne f (List.mem_cons_of_mem _ hf))
      rw [hstep]
      exact insertReplace_lookup_other res (api.favKey fav) (api.rankTruncate m) fk
        (Ne.symm (hne fav (List.mem_cons_self _ _)))

theorem distribFavs_keys_nodup (deps : List models.Departure) :
    ∀ (gfavs : List models.Favourite) (res res' : List (String × List models.Departure))
      (c : Option PyExc),
      api.distribFavs deps gfavs res = (res', c) →
      (res.map Prod.fst).Nodup → (res'.map Prod.fst).Nodup := by
  intro gfavs
  induction gfavs with
  | nil =>
    intro res res' c h hnd
    rw [api.distribFavs] at h
    simp only [Prod.mk.injEq] at h
    rwa [← h.1]
  | cons fav gfavs ih =>
    intro res res' c h hnd
    rw [api.distribFavs] at h
    cases hm : api.matchedDeps fav deps with
    | error e =>
      rw [hm] at h
      simp only [Prod.mk.injEq] at h
      rwa [← h.1]
    | ok m =>
      rw [hm] at h
      exact ih _ res' c h (insertReplace_keys_nodup _ _ _ hnd)

theorem distribFavs_no_caught_error (deps : List models.Departure) :
    ∀ (gfavs : List models.Favourite) (res res' : List (String × List models.Departure))
      (e : PyExc),
      api.distribFavs deps gfavs res = (res', some e) → e = .attributeError := by
  intro gfavs
  induction gfavs with
  | nil =>
    intro res res' e h
    rw [api.distribFavs] at h
    simp only [Prod.mk.injEq] at h
    cases h.2
  | cons fav gfavs ih =>
    intro res res' e h
    rw [api.distribFavs] at h
    cases hm : api.matchedDeps fav deps with
    | error e' =>
      rw [hm] at h
      simp only [Prod.mk.injEq] at h
      rw [← (Option.some_inj.mp h.2)]
      exact matchedDeps_error_attr fav deps e' hm
    | ok m =>
      rw [hm] at h
      exact ih _ res' e h

theorem distribFavs_lookup (deps : List models.Departure) (fk : String)
    (df : models.Favourite) :
    ∀ (gfavs : List models.Favourite) (res res' : List (String × List models.Departure)),
      api.distribFavs deps gfavs res = (res', none) →
      ((gfavs.filter (fun f => api.favKey f = fk) = [] →
        res'.lookup fk = res.lookup fk) ∧
       (gfavs.filter (fun f => api.favKey f = fk) ≠ [] →
        ∃ m, api.matchedDeps
            ((gfavs.filter (fun f => api.favKey f = fk)).getLastD df) deps = .ok m ∧
          res'.lookup fk = some (api.rankTruncate m))) := by
  intro gfavs
  induction gfavs with
  | nil =>
    intro res res' h
    rw [api.distribFavs] at h
    simp only [Prod.mk.injEq] at h
    constructor
    · intro _
      rw [← h.1]
    · intro hne
      simp at hne
  | cons fav gfavs ih =>
    intro res res' h
    rw [api.distribFavs] at h
    cases hm : api.matchedDeps fav deps with
    | error e =>
      rw [hm] at h
      simp only [Prod.mk.injEq] at h
      cases h.2
    | ok m0 =>
      rw [hm] at h
      have IH := ih (api.insertReplace res (api.favKey fav) (api.rankTruncate m0)) res' h
      by_cases hfk : api.favKey fav = fk
      · have hfil : (fav :: gfavs).filter (fun f => api.favKey f = fk) =
            fav :: gfavs.filter (fun f => api.favKey f = fk) := by
          simp [List.filter_cons, hfk]
        constructor
        · intro h0
          rw [hfil] at h0
          cases h0
        · intro _
          rw [hfil]
          by_cases hg : gfavs.filter (fun f => api.favKey f = fk) = []
          · rw [hg]
            refine ⟨m0, hm, ?_⟩
            rw [IH.1 hg, ← hfk]
            exact insertReplace_lookup_self res (api.favKey fav) (api.rankTruncate m0)
          · obtain ⟨m, hmm, hl⟩ := IH.2 hg
            refine ⟨m, ?_, hl⟩
            cases hgl : gfavs.filter (fun f => api.favKey f = fk) with
            | nil => exact absurd hgl hg
            | cons x xs =>
              rw [List.getLastD_cons, List.getLastD_cons]
              rw [hgl, List.getLastD_cons] at hmm
              exact hmm
      · have hfil : (fav :: gfavs).filter (fun f => api.favKey f = fk) =
            gfavs.filter (fun f => api.favKey f = fk) := by
          simp [List.filter_cons, hfk]
        have hpres : (api.insertReplace res (api.favKey fav)
            (api.rankTruncate m0)).lookup fk = res.lookup fk :=
          insertReplace_lookup_other res (api.favKey fav) (api.rankTruncate m0) fk
            (fun hh => hfk hh.symm)
        constructor
        · intro h0
          rw [hfil] at h0
          rw [IH.1 h0, hpres]
        · intro h0
          rw [hfil] at h0
          obtain ⟨m, hmm, hl⟩ := IH.2 h0
          refine ⟨m, ?_, hl⟩
          rwa [hfil]

theorem depLoop_requests (fetch : String × String → api.ReqOutcome) :
    ∀ (gs : List ((String × String) × List models.Favourite))
      (res : List (String × List models.Departure)) (reqs : List (String × String))
      (errs : Nat) (res' : List (String × List models.Departure))
      (reqs' : List (String × String)) (errs' : Nat) (crash' : Option PyExc),
      api.depLoop fetch gs res reqs errs = (res', reqs', errs', crash') →
      ((∃ n, reqs' = reqs ++ (gs.map Prod.fst).take n) ∧
       (crash' = none → reqs' = reqs ++ gs.map Prod.fst)) := by
  intro gs
  induction gs with
  | nil =>
    intro res reqs errs res' reqs' errs' crash' h
    rw [api.depLoop] at h
    simp only [Prod.mk.injEq] at h
    obtain ⟨-, h2, -, -⟩ := h
    constructor
    · exact ⟨0, by simp [← h2]⟩
    · intro _
      simp [← h2]
  | cons pg gs ih =>
    intro res reqs errs res' reqs' errs' crash' h
    rcases pg with ⟨p, gfavs⟩
    rw [api.depLoop] at h
    have step :
        ∀ (res0 : List (String × List models.Departure)) (errs0 : Nat),
          api.depLoop fetch gs res0 (reqs ++ [p]) errs0 = (res', reqs', errs', crash') →
          (∃ n, reqs' = reqs ++ (((p, gfavs) :: gs).map Prod.fst).take n) ∧
          (crash' = none → reqs' = reqs ++ ((p, gfavs) :: gs).map Prod.fst) := by
      intro res0 errs0 h0
      obtain ⟨⟨n, hn⟩, hc⟩ := ih _ _ _ _ _ _ _ h0
      constructor
      · exact ⟨n + 1, by simp [hn, List.take_succ_cons]⟩
      · intro hcr
        simp [hc hcr]
    have abort :
        ∀ (res0 : List (String × List models.Departure)) (e : PyExc),
          ((res0, reqs ++ [p], errs, some e) :
              List (String × List models.Departure) × List (String × String) ×
                Nat × Option PyExc) = (res', reqs', errs', crash') →
          (∃ n, reqs' = reqs ++ (((p, gfavs) :: gs).map Prod.fst).take n) ∧
          (crash' = none → reqs' = reqs ++ ((p, gfavs) :: gs).map Prod.fst) := by
      intro res0 e h0
      simp only [Prod.mk.injEq] at h0
      obtain ⟨-, h2, -, h4⟩ := h0
      constructor
      · exact ⟨1, by simp [← h2, List.take_succ_cons]⟩
      · intro hcr
        rw [← h4] at hcr
        cases hcr
    split at h
    · exact step _ _ h
    · split at h
      · split at h
        · exact step _ _ h
        · exact abort _ _ h
      · split at h
        · exact step _ _ h
        · split at h
          · exact step _ _ h
          · exact abort _ _ h

theorem depLoop_res_keys_nodup (fetch : String × String → api.ReqOutcome) :
    ∀ (gs : List ((String × String) × List models.Favourite))
      (res : List (String × List models.Departure)) (reqs : List (String × String))
      (errs : Nat) (res' : List (String × List models.Departure))
      (reqs' : List (String × String)) (errs' : Nat) (crash' : Option PyExc),
      api.depLoop fetch gs res reqs errs = (res', reqs', errs', crash') →
      (res.map Prod.fst).Nodup → (res'.map Prod.fst).Nodup := by
  intro gs
  induction gs with
  | nil =>
    intro res reqs errs res' reqs' errs' crash' h hnd
    rw [api.depLoop] at h
    simp only [Prod.mk.injEq] at h
    rwa [← h.1]
  | cons pg gs ih =>
    intro res reqs errs res' reqs' errs' crash' h hnd
    rcases pg with ⟨p, gfavs⟩
    rw [api.depLoop] at h
    split at h
    · exact ih _ _ _ _ _ _ _ h hnd
    · split at h
      · split at h
        · exact ih _ _ _ _ _ _ _ h hnd
        · simp only [Prod.mk.injEq] at h
          rwa [← h.1]
      · split at h
        · rename_i res1 heq
          exact ih _ _ _ _ _ _ _ h (distribFavs_keys_nodup _ _ _ _ _ heq hnd)
        · rename_i res1 e heq
          split at h
          · exact ih _ _ _ _ _ _ _ h (distribFavs_keys_nodup _ _ _ _ _ heq hnd)
          · simp only [Prod.mk.injEq] at h
            have hnd1 := distribFavs_keys_nodup _ _ _ _ _ heq hnd
            rwa [← h.1]

theorem depLoop_lookup (fetch : String × String → api.ReqOutcome) (fk : String)
    (k0 : String × String) (g : List models.Favourite) (body0 : Json) (ts0 : Int)
    (deps0 : List models.Departure) (df : models.Favourite)
    (hfetch : fetch k0 = .ok body0 ts0)
    (hparse : api.parseDepartures body0 ts0 = .ok deps0)
    (hg : g.filter (fun f => api.favKey f = fk) ≠ []) :
    ∀ (gs : List ((String × String) × List models.Favourite))
      (res : List (String × List models.Departure)) (reqs : List (String × String))
      (errs : Nat) (res' : List (String × List models.Departure))
      (reqs' : List (String × String)) (errs' : Nat) (crash' : Option PyExc),
      api.depLoop fetch gs res reqs errs = (res', reqs', errs', crash') →
      crash' = none →
      (∀ pg ∈ gs, pg.1 ≠ k0 → ∀ f ∈ pg.2, api.favKey f ≠ fk) →
      (∀ pg ∈ gs, pg.1 = k0 → pg.2 = g) →
      ((k0 ∈ gs.map Prod.fst →
        ∃ m, api.matchedDeps ((g.filter (fun f => api.favKey f = fk)).getLastD df) deps0
            = .ok m ∧ res'.lookup fk = some (api.rankTruncate m)) ∧
       (k0 ∉ gs.map Prod.fst → res'.lookup fk = res.lookup fk)) := by
  intro gs
  induction gs with
  | nil =>
    intro res reqs errs res' reqs' errs' crash' h hcr h1 h2
    rw [api.depLoop] at h
    simp only [Prod.mk.injEq] at h
    constructor
    · intro hk
      simp at hk
    · intro _
      rw [← h.1]
  | cons pg gs ih =>
    intro res reqs errs res' reqs' errs' crash' h hcr h1 h2
    rcases pg with ⟨p, gfavs⟩
    have h1' : ∀ pg ∈ gs, pg.1 ≠ k0 → ∀ f ∈ pg.2, api.favKey f ≠ fk :=
      fun pg hpg => h1 pg (List.mem_cons_of_mem _ hpg)
    have h2' : ∀ pg ∈ gs, pg.1 = k0 → pg.2 = g :=
      fun pg hpg => h2 pg (List.mem_cons_of_mem _ hpg)
    rw [api.depLoop] at h
    by_cases hp0 : p = k0
    · have hgf : gfavs = g := h2 (p, gfavs) (List.mem_cons_self _ _) hp0
      have hmem0 : k0 ∈ ((p, gfavs) :: gs).map Prod.fst := by
        simp only [List.map_cons, List.mem_cons]
        exact Or.inl hp0.symm
      split at h
      · rename_i heq
        rw [hp0, hfetch] at heq
        cases heq
      · rename_i body ts heq
        rw [hp0, hfetch] at heq
        injection heq with hb hts
        split at h
        · rename_i e heqp
          rw [← hb, ← hts, hparse] at heqp
          cases heqp
        · rename_i deps heqp
          rw [← hb, ← hts, hparse] at heqp
          injection heqp with hdeps
          split at h
          · rename_i res1 heqd
            rw [hgf, ← hdeps] at heqd
            obtain ⟨m, hmm, hl1⟩ := (distribFavs_lookup deps0 fk df g res res1 heqd).2 hg
            have IH := ih res1 _ _ _ _ _ _ h hcr h1' h2'
            constructor
            · intro _
              by_cases hk : k0 ∈ gs.map Prod.fst
              · exact IH.1 hk
              · exact ⟨m, hmm, by rw [IH.2 hk]; exact hl1⟩
            · intro hnot
              exact absurd hmem0 hnot
          · rename_i res1 e heqd
            rw [hgf, ← hdeps] at heqd
            have he := distribFavs_no_caught_error deps0 g res res1 e heqd
            split at h
            · rename_i hcaught
              rw [he] at hcaught
              simp [api.depRunCatches] at hcaught
            · simp only [Prod.mk.injEq] at h
              obtain ⟨-, -, -, h4⟩ := h
              rw [← h4] at hcr
              cases hcr
    · have hnof : ∀ f ∈ gfavs, api.favKey f ≠ fk :=
        h1 (p, gfavs) (List.mem_cons_self _ _) hp0
      have cont : ∀ (res1 : List (String × List models.Departure)) (errs0 : Nat),
          api.depLoop fetch gs res1 (reqs ++ [p]) errs0 = (res', reqs', errs', crash') →
          res1.lookup fk = res.lookup fk →
          ((k0 ∈ ((p, gfavs) :: gs).map Prod.fst →
            ∃ m, api.matchedDeps
                ((g.filter (fun f => api.favKey f = fk)).getLastD df) deps0 = .ok m ∧
              res'.lookup fk = some (api.rankTruncate m)) ∧
           (k0 ∉ ((p, gfavs) :: gs).map Prod.fst →
            res'.lookup fk = res.lookup fk)) := by
        intro res1 errs0 h0 hpres
        have IH := ih res1 _ _ _ _ _ _ h0 hcr h1' h2'
        constructor
        · intro hk
          simp only [List.map_cons, List.mem_cons] at hk
          rcases hk with hk | hk
          · exact absurd hk.symm hp0
          · exact IH.1 hk
        · intro hk
          have hk' : k0 ∉ gs.map Prod.fst := by
            intro hh
            exact hk (by simp [hh])
          rw [IH.2 hk', hpres]
      split at h
      · exact cont _ _ h rfl
      · split at h
        · split at h
          · exact cont _ _ h rfl
          · simp only [Prod.mk.injEq] at h
            obtain ⟨-, -, -, h4⟩ := h
            rw [← h4] at hcr
            cases hcr
        · split at h
          · rename_i res1 heqd
            exact cont _ _ h (distribFavs_lookup_other _ _ _ _ _ _ heqd hnof)
          · rename_i res1 e heqd
            split at h
            · exact cont _ _ h (distribFavs_lookup_other _ _ _ _ _ _ heqd hnof)
            · simp only [Prod.mk.injEq] at h
              obtain ⟨-, -, -, h4⟩ := h
              rw [← h4] at hcr
              cases hcr

theorem addToGroups_not_mem (p : String × String) (f : models.Favourite) :
    ∀ (gs : List ((String × String) × List models.Favourite)),
      p ∉ gs.map Prod.fst → api.addToGroups gs p f = gs ++ [(p, [f])] := by
  intro gs
  induction gs with
  | nil =>
    intro _
    simp [api.addToGroups]
  | cons qg gs ih =>
    rcases qg with ⟨q, gq⟩
    intro hp
    have hq : q ≠ p := by
      intro hh
      exact hp (by simp [hh])
    rw [api.addToGroups, if_neg hq, ih (fun hh => hp (by simp [hh])), List.cons_append]

theorem addToGroups_mem_split (p : String × String) (f : models.Favourite)
    (gmid : List models.Favourite) :
    ∀ (gs1 gs2 : List ((String × String) × List models.Favourite)),
      p ∉ gs1.map Prod.fst →
      api.addToGroups (gs1 ++ (p, gmid) :: gs2) p f = gs1 ++ (p, gmid ++ [f]) :: gs2 := by
  intro gs1
  induction gs1 with
  | nil =>
    intro gs2 _
    simp [api.addToGroups]
  | cons qg gs1 ih =>
    rcases qg with ⟨q, gq⟩
    intro gs2 hp
    have hq : q ≠ p := by
      intro hh
      exact hp (by simp [hh])
    rw [List.cons_append, api.addToGroups, if_neg hq,
      ih gs2 (fun hh => hp (by simp [hh])), List.cons_append]

theorem addToGroups_inv (done : List models.Favourite) (f : models.Favourite)
    (gs : List ((String × String) × List models.Favourite))
    (hnd : (gs.map Prod.fst).Nodup)
    (hent : ∀ pg ∈ gs, pg.2 = done.filter (fun x => api.favPair x = pg.1))
    (hiff : ∀ p, p ∈ gs.map Prod.fst ↔ p ∈ done.map api.favPair) :
    (((api.addToGroups gs (api.favPair f) f).map Prod.fst).Nodup ∧
     (∀ pg ∈ api.addToGroups gs (api.favPair f) f,
       pg.2 = (done ++ [f]).filter (fun x => api.favPair x = pg.1)) ∧
     (∀ p, p ∈ (api.addToGroups gs (api.favPair f) f).map Prod.fst ↔
       p ∈ (done ++ [f]).map api.favPair)) := by
  have hfa : ∀ (k : String × String),
      (done ++ [f]).filter (fun x => api.favPair x = k) =
        done.filter (fun x => api.favPair x = k) ++
          (if api.favPair f = k then [f] else []) := by
    intro k
    rw [List.filter_append]
    congr 1
    by_cases hk : api.favPair f = k
    · simp [hk]
    · simp [hk]
  by_cases hp : api.favPair f ∈ gs.map Prod.fst
  · obtain ⟨pg0, hpg0, hfst⟩ := List.mem_map.mp hp
    obtain ⟨gs1, gs2, hsplit⟩ := List.append_of_mem hpg0
    rcases pg0 with ⟨p0, gmid⟩
    simp only at hfst
    subst hfst
    subst hsplit
    have hkeys : (gs1 ++ (api.favPair f, gmid) :: gs2).map Prod.fst =
        gs1.map Prod.fst ++ api.favPair f :: gs2.map Prod.fst := by
      simp
    have hnd' := hnd
    rw [hkeys, List.nodup_middle] at hnd'
    have hnotin12 := (List.nodup_cons.mp hnd').1
    have hnotin1 : api.favPair f ∉ gs1.map Prod.fst := fun hh =>
      hnotin12 (List.mem_append_left _ hh)
    have hnotin2 : api.favPair f ∉ gs2.map Prod.fst := fun hh =>
      hnotin12 (List.mem_append_right _ hh)
    rw [addToGroups_mem_split _ f gmid gs1 gs2 hnotin1]
    refine ⟨?_, ?_, ?_⟩
    · have : (gs1 ++ (api.favPair f, gmid ++ [f]) :: gs2).map Prod.fst =
          (gs1 ++ (api.favPair f, gmid) :: gs2).map Prod.fst := by
        simp
      rwa [this]
    · intro pg' hpg'
      rcases List.mem_append.mp hpg' with hin1 | hin2
      · have hne : api.favPair f ≠ pg'.1 := by
          intro hh
          exact hnotin1 (hh ▸ List.mem_map_of_mem Prod.fst hin1)
        rw [hfa, if_neg hne, List.append_nil]
        exact hent pg' (List.mem_append_left _ hin1)
      · rcases List.mem_cons.mp hin2 with heqpg | hin2'
        · subst heqpg
          rw [hfa]
          simp only [if_pos rfl]
          have := hent (api.favPair f, gmid)
            (List.mem_append_right _ (List.mem_cons_self _ _))
          simp only at this
          rw [← this]
          simp
        · have hne : api.favPair f ≠ pg'.1 := by
            intro hh
            exact hnotin2 (hh ▸ List.mem_map_of_mem Prod.fst hin2')
          rw [hfa, if_neg hne, List.append_nil]
          exact hent pg'
            (List.mem_append_right _ (List.mem_cons_of_mem _ hin2'))
    · intro p
      have hkeys' : (gs1 ++ (api.favPair f, gmid ++ [f]) :: gs2).map Prod.fst =
          (gs1 ++ (api.favPair f, gmid) :: gs2).map Prod.fst := by
        simp
      rw [hkeys']
      constructor
      · intro hh
        rw [List.map_append, List.map_singleton]
        exact List.mem_append_left _ ((hiff p).mp hh)
      · intro hh
        rw [List.map_append, List.map_singleton] at hh
        rcases List.mem_append.mp hh with hh | hh
        · exact (hiff p).mpr hh
        · rw [List.mem_singleton] at hh
          exact hh ▸ hp
  · rw [addToGroups_not_mem _ f gs hp]
    have hdone : done.filter (fun x => api.favPair x = api.favPair f) = [] := by
      rw [List.filter_eq_nil_iff]
      intro x hx
      simp only [decide_eq_true_eq]
      intro hh
      exact hp ((hiff (api.favPair f)).mpr (hh ▸ List.mem_map_of_mem api.favPair hx))
    refine ⟨?_, ?_, ?_⟩
    · rw [List.map_append, List.map_singleton]
      refine List.Nodup.append hnd (List.nodup_singleton _) ?_
      intro a ha hb
      rw [List.mem_singleton] at hb
      subst hb
      exact hp ha
    · intro pg' hpg'
      rcases List.mem_append.mp hpg' with hin | hin
      · have hne : api.favPair f ≠ pg'.1 := by
          intro hh
          exact hp (hh ▸ List.mem_map_of_mem Prod.fst hin)
        rw [hfa, if_neg hne, List.append_nil]
        exact hent pg' hin
      · rw [List.mem_singleton] at hin
        subst hin
        rw [hfa]
        simp only [if_pos rfl]
        rw [hdone]
        rfl
    · intro p
      rw [List.map_append, List.map_singleton, List.map_append, List.map_singleton]
      simp only [List.mem_append, List.mem_singleton]
      constructor
      · rintro (hh | hh)
        · exact Or.inl ((hiff p).mp hh)
        · exact Or.inr hh
      · rintro (hh | hh)
        · exact Or.inl ((hiff p).mpr hh)
        · exact Or.inr hh

theorem depGroups_fold_inv :
    ∀ (rest done : List models.Favourite)
      (gs : List ((String × String) × List models.Favourite)),
      (gs.map Prod.fst).Nodup →
      (∀ pg ∈ gs, pg.2 = done.filter (fun x => api.favPair x = pg.1)) →
      (∀ p, p ∈ gs.map Prod.fst ↔ p ∈ done.map api.favPair) →
      (((rest.foldl (fun a f => api.addToGroups a (api.favPair f) f) gs).map
          Prod.fst).Nodup ∧
       (∀ pg ∈ rest.foldl (fun a f => api.addToGroups a (api.favPair f) f) gs,
         pg.2 = (done ++ rest).filter (fun x => api.favPair x = pg.1)) ∧
       (∀ p, p ∈ (rest.foldl (fun a f => api.addToGroups a (api.favPair f) f) gs).map
           Prod.fst ↔ p ∈ (done ++ rest).map api.favPair)) := by
  intro rest
  induction rest with
  | nil =>
    intro done gs hnd hent hiff
    simp only [List.foldl_nil, List.append_nil]
    exact ⟨hnd, hent, hiff⟩
  | cons f rest ih =>
    intro done gs hnd hent hiff
    simp only [List.foldl_cons]
    obtain ⟨hnd', hent', hiff'⟩ := addToGroups_inv done f gs hnd hent hiff
    have hrec := ih (done ++ [f]) _ hnd' hent' hiff'
    rwa [List.append_assoc, List.singleton_append] at hrec

theorem depGroups_spec (favs : List models.Favourite) :
    ((api.depGroups favs).map Prod.fst).Nodup ∧
    (∀ pg ∈ api.depGroups favs, pg.2 = favs.filter (fun x => api.favPair x = pg.1)) ∧
    (∀ p, p ∈ (api.depGroups favs).map Prod.fst ↔ p ∈ favs.map api.favPair) := by
  have hres := depGroups_fold_inv favs [] [] (by simp) (by simp) (by simp)
  simpa [api.depGroups] using hres

/-- C1: the departure aggregator issues at most one live-feed request per
distinct `(stop_area_id, line_id)` pair — requests are duplicate-free and
each corresponds to a pair occurring among the favourites — and on any run
that does not abort it issues exactly one request per distinct pair,
however many favourites (or directions/destinations) share that pair. -/
theorem claim_C1 (favs : List models.Favourite) (fetch : String × String → api.ReqOutcome) :
    (api.DepartureWorker.run favs fetch).requests.Nodup ∧
    (∀ p ∈ (api.DepartureWorker.run favs fetch).requests, p ∈ favs.map api.favPair) ∧
    ((api.DepartureWorker.run favs fetch).crashed = none →
      ∀ p, p ∈ (api.DepartureWorker.run favs fetch).requests ↔
        p ∈ favs.map api.favPair) := by
  obtain ⟨hnd, hent, hiff⟩ := depGroups_spec favs
  rcases hdl : api.depLoop fetch (api.depGroups favs) [] [] 0 with ⟨res, reqs, errs, crash⟩
  obtain ⟨⟨n, hn⟩, hfull⟩ := depLoop_requests fetch _ _ _ _ _ _ _ _ hdl
  have hrun : (api.DepartureWorker.run favs fetch).requests = reqs ∧
      (api.DepartureWorker.run favs fetch).crashed = crash := by
    rw [api.DepartureWorker.run, hdl]
    cases crash <;> exact ⟨rfl, rfl⟩
  rw [hrun.1]
  simp only [List.nil_append] at hn hfull
  refine ⟨?_, ?_, ?_⟩
  · rw [hn]
    exact List.Pairwise.sublist (List.take_sublist n _) hnd
  · intro p hp
    rw [hn] at hp
    exact (hiff p).mp (List.take_subset _ _ hp)
  · intro hcr p
    rw [hrun.2] at hcr
    rw [hfull hcr]
    exact hiff p

theorem claim_C1_witness :
    ((api.DepartureWorker.run [sampleFav]
        (fun _ => api.ReqOutcome.transportError)).crashed = none) ∧
    (("50980", "C02000") ∈
        (api.DepartureWorker.run [sampleFav]
          (fun _ => api.ReqOutcome.transportError)).requests ↔
      ("50980", "C02000") ∈ [sampleFav].map api.favPair) :=
  ⟨rfl, (claim_C1 [sampleFav] (fun _ => api.ReqOutcome.transportError)).2.2 rfl
    ("50980", "C02000")⟩

/-- C10: when two favourites of the same collection share `stop_area_id`,
`line_id` and `direction` but differ in `destination_name`, they compete for
the same composite key, and the aggregator's output holds a single entry
under that key, carrying the filtered list of the favourite processed last
(the last one in input order with that key) — so the other favourite's list
is absent from the output.  Side conditions: the fetch of the shared pair
parses cleanly, no favourite of a different `(stop, line)` group collides
with the composite key string, and the run does not abort. -/
theorem claim_C10 (f1 f2 : models.Favourite) (favs : List models.Favourite)
    (fetch : String × String → api.ReqOutcome) (body0 : Json) (ts0 : Int)
    (deps0 : List models.Departure)
    (hf1 : f1 ∈ favs) (hf2 : f2 ∈ favs)
    (hpair : api.favPair f2 = api.favPair f1)
    (hdir : f2.direction = f1.direction)
    (_hdest : f2.destination_name ≠ f1.destination_name)
    (hkey : ∀ f ∈ favs, api.favKey f = api.favKey f1 →
      api.favPair f = api.favPair f1)
    (hfetch : fetch (api.favPair f1) = .ok body0 ts0)
    (hparse : api.parseDepartures body0 ts0 = .ok deps0)
    (hcr : (api.DepartureWorker.run favs fetch).crashed = none) :
    f2 ∈ favs.filter (fun f => api.favKey f = api.favKey f1) ∧
    ∃ res, (api.DepartureWorker.run favs fetch).finishedEvents = [res] ∧
      (res.map Prod.fst).count (api.favKey f1) = 1 ∧
      ∃ m, api.matchedDeps
          ((favs.filter (fun f => api.favKey f = api.favKey f1)).getLastD f1)
          deps0 = .ok m ∧
        res.lookup (api.favKey f1) = some (api.rankTruncate m) := by
  obtain ⟨_, hent, hiff⟩ := depGroups_spec favs
  have hcomp : f2.stop_area_id = f1.stop_area_id ∧ f2.line_id = f1.line_id := by
    have h2 := hpair
    simp only [api.favPair, Prod.mk.injEq] at h2
    exact h2
  have hkeq : api.favKey f2 = api.favKey f1 := by
    simp only [api.favKey, hcomp.1, hcomp.2, hdir]
  have hmemf2 : f2 ∈ favs.filter (fun f => api.favKey f = api.favKey f1) :=
    List.mem_filter.mpr ⟨hf2, by simp [hkeq]⟩
  rcases hdl : api.depLoop fetch (api.depGroups favs) [] [] 0 with
    ⟨res, reqs, errs, crash⟩
  have hrun : (api.DepartureWorker.run favs fetch).crashed = crash := by
    rw [api.DepartureWorker.run, hdl]
    cases crash <;> rfl
  rw [hrun] at hcr
  subst hcr
  have hfin : (api.DepartureWorker.run favs fetch).finishedEvents = [res] := by
    rw [api.DepartureWorker.run, hdl]
  have hgne : (favs.filter (fun f => api.favPair f = api.favPair f1)).filter
      (fun f => api.favKey f = api.favKey f1) ≠ [] := by
    have hf1g : f1 ∈ (favs.filter (fun f => api.favPair f = api.favPair f1)).filter
        (fun f => api.favKey f = api.favKey f1) :=
      List.mem_filter.mpr ⟨List.mem_filter.mpr ⟨hf1, by simp⟩, by simp⟩
    exact List.ne_nil_of_mem hf1g
  have hne : ∀ pg ∈ api.depGroups favs, pg.1 ≠ api.favPair f1 →
      ∀ f ∈ pg.2, api.favKey f ≠ api.favKey f1 := by
    intro pg hpg hpne f hfpg hkf
    rw [hent pg hpg] at hfpg
    obtain ⟨hfav, hp⟩ := List.mem_filter.mp hfpg
    have h1 : api.favPair f = pg.1 := by simpa using hp
    exact hpne (h1.symm.trans (hkey f hfav hkf))
  have hgeq : ∀ pg ∈ api.depGroups favs, pg.1 = api.favPair f1 →
      pg.2 = favs.filter (fun f => api.favPair f = api.favPair f1) := by
    intro pg hpg hpk
    rw [hent pg hpg, hpk]
  have hk0mem : api.favPair f1 ∈ (api.depGroups favs).map Prod.fst :=
    (hiff _).mpr (List.mem_map_of_mem _ hf1)
  obtain ⟨hin, _⟩ := depLoop_lookup fetch (api.favKey f1) (api.favPair f1)
    (favs.filter (fun f => api.favPair f = api.favPair f1)) body0 ts0 deps0 f1
    hfetch hparse hgne (api.depGroups favs) [] [] 0 res reqs errs none hdl rfl
    hne hgeq
  obtain ⟨m, hm, hlk⟩ := hin hk0mem
  have hcoll : (favs.filter (fun f => api.favPair f = api.favPair f1)).filter
      (fun f => api.favKey f = api.favKey f1)
      = favs.filter (fun f => api.favKey f = api.favKey f1) := by
    rw [List.filter_filter]
    apply List.filter_congr
    intro f hf
    by_cases hk : api.favKey f = api.favKey f1
    · simp [hk, hkey f hf hk]
    · simp [hk]
  rw [hcoll] at hm
  have hndres : (res.map Prod.fst).Nodup :=
    depLoop_res_keys_nodup fetch _ _ _ _ _ _ _ _ hdl (by simp)
  have hmemk : api.favKey f1 ∈ res.map Prod.fst := lookup_mem_keys res _ _ hlk
  exact ⟨hmemf2, res, hfin, List.count_eq_one_of_mem hndres hmemk, m, hm, hlk⟩

theorem claim_C10_witness :
    sampleFav2.destination_name ≠ sampleFav.destination_name ∧
    (sampleFav2 ∈ [sampleFav, sampleFav2].filter
        (fun f => api.favKey f = api.favKey sampleFav) ∧
     ∃ res, (api.DepartureWorker.run [sampleFav, sampleFav2]
         (fun _ => api.ReqOutcome.ok (sampleBody []) 0)).finishedEvents = [res] ∧
       (res.map Prod.fst).count (api.favKey sampleFav) = 1 ∧
       ∃ m, api.matchedDeps (([sampleFav, sampleFav2].filter
             (fun f => api.favKey f = api.favKey sampleFav)).getLastD sampleFav)
           [] = .ok m ∧
         res.lookup (api.favKey sampleFav) = some (api.rankTruncate m)) :=
  ⟨by decide,
   claim_C10 sampleFav sampleFav2 [sampleFav, sampleFav2]
     (fun _ => api.ReqOutcome.ok (sampleBody []) 0) (sampleBody []) 0 []
     (by decide) (by decide) rfl rfl (by decide) (by decide) rfl rfl rfl⟩

/-- `_natural_sort_key` on an ordinary label: `'T1' < 'T3a'`-style keys. -/
theorem natural_sort_key_plain :
    api._natural_sort_key "T3a" =
      .ok [.str "t", .int 3, .str "a"] := rfl

/-- The `ValueError` path of `_natural_sort_key`: `"²"` is a single
`re.split` piece with `isdigit()` true, and `int("²")` raises. -/
theorem natural_sort_key_superscript :
    api._natural_sort_key "²" = .error PyExc.valueError := rfl

/-- At the worker level: a line-search response whose `shortname_line` is
`"²"` makes the eager sort-key computation raise `ValueError`, which
`LineSearchWorker.run` does not catch — the run aborts and no `finished`
event is emitted. -/
theorem lsRun_superscript_aborts :
    (api.LineSearchWorker.run "" "" 0
        (.ok (Json.obj [("results",
          Json.arr [Json.obj [("shortname_line", Json.str "²")]])]) 0)).crashed
        = some PyExc.valueError ∧
    (api.LineSearchWorker.run "" "" 0
        (.ok (Json.obj [("results",
          Json.arr [Json.obj [("shortname_line", Json.str "²")]])]) 0)).finishedEvents
        = [] :=
  ⟨rfl, rfl⟩
